import Mathlib

/-!
Verification development for the proxy-origin fingerprint detector of the
new-api repository (package service: safeDialer, classifyMsgID,
classifyThinkingSig, detectProxyPlatform, probeOnce, analyze,
verifyRatelimitDynamic, ScanMultipleModels, and the ProxyDetect wrapper).

Modelling conventions:
- Go int / int64 are modelled as Int; Go byte slices (net.IP) as List Nat.
- Go float64 confidence arithmetic is modelled bit-exactly: flDyadic
  performs IEEE-754 binary64 rounding (round to nearest, ties to even)
  on exact rationals kept in integer mantissa/exponent form, and
  goConfidence chains it through the two int-to-float64 conversions, the
  division, the product with 100, math.Round, and the division by 100 of
  the confidence expression. Exact rational rounding would differ: at
  scores 23/40 binary64 yields 0.57 where exact arithmetic yields 0.58.
- Go maps with a fixed key set (the scores map) are modelled as structures;
  Go maps with dynamic keys (scan summary) as association lists with
  overwrite-on-insert; iteration order over a Go map is nondeterministic,
  so header maps are passed as lists in some iteration order.
- Network and clock effects are supplied as explicit oracle values: one
  ProbeOutcome per HTTP probe; measured latency enters through the oracle.
- Go strings-package helpers (HasPrefix, Contains, ToLower, TrimSpace,
  Split) are re-implemented over character lists; for the ASCII patterns
  used by the detector these agree with Go's byte-level behaviour.
-/

/-- Go strings.HasPrefix helper: list prefix check. -/
def listIsPre : List Char → List Char → Bool
  | [], _ => true
  | _ :: _, [] => false
  | a :: as, b :: bs => a == b && listIsPre as bs

/-- Substring occurrence on character lists (Go strings.Contains). -/
def listInf (pat : List Char) : List Char → Bool
  | [] => pat.isEmpty
  | c :: t => listIsPre pat (c :: t) || listInf pat t

/-- Go strings.HasPrefix. -/
def strStartsWith (s p : String) : Bool := listIsPre p.data s.data

/-- Go strings.Contains. -/
def strContains (s pat : String) : Bool := listInf pat.data s.data

/-- Go strings.ToLower (ASCII range; the detector only lowercases
header keys and hex ids, which are ASCII). -/
def strLower (s : String) : String := ⟨s.data.map Char.toLower⟩

/-- ASCII whitespace class used by the TrimSpace model. -/
def isSpaceChar (c : Char) : Bool :=
  c == ' ' || c == '\t' || c == '\n' || c == '\r'

/-- Drop leading whitespace from a character list. -/
def trimListL : List Char → List Char
  | [] => []
  | c :: t => if isSpaceChar c then trimListL t else c :: t

/-- Go strings.TrimSpace (ASCII whitespace). -/
def strTrim (s : String) : String :=
  ⟨(trimListL (trimListL s.data.reverse)).reverse⟩

/-- Splitter for Go strings.Split(s, ",") on character lists. -/
def splitCommaAux : List Char → List Char → List (List Char)
  | [], acc => [acc.reverse]
  | c :: t, acc => if c == ',' then acc.reverse :: splitCommaAux t [] else splitCommaAux t (c :: acc)

/-- Go strings.Split(s, ","). -/
def strSplitComma (s : String) : List String :=
  (splitCommaAux s.data []).map (fun l => ⟨l⟩)

/-- Go strconv.Atoi: optional sign, decimal digits, 64-bit range; failures
are reported as none (the callers only use the value when err == nil). -/
def atoi (s : String) : Option Int :=
  let sd : Bool × List Char :=
    match s.data with
    | '+' :: t => (false, t)
    | '-' :: t => (true, t)
    | t => (false, t)
  let neg := sd.1
  let digits := sd.2
  if digits = [] then none
  else if digits.all Char.isDigit then
    let n : Nat := digits.foldl (fun acc c => acc * 10 + (c.toNat - 48)) 0
    let v : Int := if neg then -(n : Int) else (n : Int)
    if v < -(2 ^ 63) ∨ 2 ^ 63 - 1 < v then none else some v
  else none

/-- Lower-case hexadecimal digit class [0-9a-f]; inputs are lower-cased
before use, mirroring the (?i) flag on the Go regular expressions. -/
def hexLower (c : Char) : Bool := c.isDigit || ('a' ≤ c && c ≤ 'f')

/-- Go regexp msgIDUUIDPattern: case-insensitive match of
msg_ followed by 8 hex digits, a dash, 4 hex digits and a dash,
anchored at the start. -/
def msgUUIDMatch (s : String) : Bool :=
  let cs := (strLower s).data
  cs.take 4 == ['m', 's', 'g', '_'] &&
  ((cs.drop 4).take 8).length == 8 && ((cs.drop 4).take 8).all hexLower &&
  (cs.drop 12).take 1 == ['-'] &&
  ((cs.drop 13).take 4).length == 4 && ((cs.drop 13).take 4).all hexLower &&
  (cs.drop 17).take 1 == ['-']

/-- Go regexp uuidPattern: case-insensitive full-string UUID shape
8-4-4-4-12 hex digits. -/
def uuidMatch (s : String) : Bool :=
  let cs := (strLower s).data
  cs.length == 36 &&
  (cs.take 8).all hexLower && cs.getD 8 ' ' == '-' &&
  ((cs.drop 9).take 4).all hexLower && cs.getD 13 ' ' == '-' &&
  ((cs.drop 14).take 4).all hexLower && cs.getD 18 ' ' == '-' &&
  ((cs.drop 19).take 4).all hexLower && cs.getD 23 ' ' == '-' &&
  ((cs.drop 24).take 12).all hexLower

/-- Go regexp toolNPattern: tool_ followed by one or more decimal digits,
matching the whole string. -/
def toolNMatch (s : String) : Bool :=
  s.data.take 5 == ['t', 'o', 'o', 'l', '_'] &&
  !(s.data.drop 5).isEmpty && (s.data.drop 5).all Char.isDigit

/-- Go constant thinkingSigShortThreshold. -/
def thinkingSigShortThreshold : Nat := 100

/-- classifyMsgID (error.go): classify a message id into
(source, format). -/
def classifyMsgID (msgID : String) : String × String :=
  if msgID = "" then ("unknown", "")
  else if strStartsWith msgID "req_vrtx_" then ("vertex", "req_vrtx")
  else if strStartsWith msgID "msg_" then
    if msgUUIDMatch msgID then ("antigravity", "msg_uuid") else ("anthropic", "base62")
  else if uuidMatch msgID then ("rewritten", "uuid")
  else ("rewritten", "other")

/-- classifyThinkingSig: classify a thinking signature; note the source
checks the short-length branch before the claude# prefix branch.
Lengths are UTF-8 byte lengths, as in Go len(sig). -/
def classifyThinkingSig (sig : String) : String :=
  if sig = "" then "none"
  else if sig.utf8ByteSize < thinkingSigShortThreshold then "short"
  else if strStartsWith sig "claude#" then "vertex"
  else "normal"

/-- Take the longest character prefix that fits in maxLen UTF-8 bytes
(a Go byte slice s[:maxLen] cut mid-character would be invalid UTF-8 and
is truncated at the preceding character boundary here; all ids passed to
truncStr by the detector are ASCII, where this is exact). -/
def takeBytesAux : List Char → Nat → List Char
  | [], _ => []
  | c :: t, budget => if c.utf8Size ≤ budget then c :: takeBytesAux t (budget - c.utf8Size) else []

/-- truncStr (error.go): truncate to maxLen bytes and add an ellipsis. -/
def truncStr (s : String) (maxLen : Nat) : String :=
  if s.utf8ByteSize ≤ maxLen then s
  else (⟨takeBytesAux s.data maxLen⟩ : String) ++ "..."

/-- Fingerprint (error.go): the observation extracted from one probe.
Field defaults are Go zero values, matching the Fingerprint{...} literal
in probeOnce. ThinkingSigLen is a byte length, hence Nat. -/
structure Fingerprint where
  toolID : String := ""
  toolIDSource : String := ""
  msgID : String := ""
  msgIDSource : String := ""
  msgIDFormat : String := ""
  model : String := ""
  modelRequested : String := ""
  modelSource : String := ""
  usageStyle : String := ""
  hasServiceTier : Bool := false
  serviceTier : String := ""
  hasInferenceGeo : Bool := false
  inferenceGeo : String := ""
  hasCacheCreation : Bool := false
  hasAWSHeaders : Bool := false
  hasAnthropicHdrs : Bool := false
  thinkingSigClass : String := ""
  thinkingSigLen : Nat := 0
  probeType : String := ""
  latencyMs : Int := 0
  stopReason : String := ""
  proxyPlatform : String := ""
  platformClues : List String := []
  error : String := ""
  ratelimitInputLimit : Int := 0
  ratelimitInputRemaining : Int := 0
  ratelimitInputReset : String := ""
deriving DecidableEq, Repr

/-- The scores map of analyze; its key set is fixed to
anthropic / bedrock / antigravity, so it is modelled as a structure. -/
structure Scores where
  anthropic : Int
  bedrock : Int
  antigravity : Int
deriving DecidableEq, Repr

/-- Sum of the three buckets (the total of the verdict pass). -/
def scoresTotal (s : Scores) : Int := s.anthropic + s.bedrock + s.antigravity

/-- Maximum bucket score. -/
def maxTri (s : Scores) : Int := max s.anthropic (max s.bedrock s.antigravity)

/-- Mutable state threaded through the passes of analyze:
the scores map, the missingFlags list of the negative-evidence pass,
and the evidence list. -/
structure AState where
  scores : Scores
  flags : List String
  evidence : List String
deriving DecidableEq, Repr

/-- One sample of verifyRatelimitDynamic. -/
structure RLSample where
  remaining : Int
  reset : String
deriving DecidableEq, Repr

/-- Result of verifyRatelimitDynamic (the Go map with keys verdict /
detail / samples). -/
structure RLVerify where
  verdict : String
  detail : String
  samples : List RLSample
deriving DecidableEq, Repr

/-- DetectResult (error.go). Confidence is the float64 field, carried
as the exact rational value of the binary64 result. -/
structure DetectResult where
  verdict : String
  verdictText : String
  confidence : ℚ
  scores : Scores
  evidence : List String
  fingerprints : List Fingerprint
  model : String
  avgLatencyMs : Int
  proxyPlatform : String
  platformClues : List String
  ratelimitVerify : Option RLVerify := none

/-- ScanResult (error.go). Summary is a Go map keyed by model name,
modelled as an association list with overwrite-on-insert. -/
structure ScanResult where
  baseURL : String
  proxyPlatform : String
  modelResults : List DetectResult
  summary : List (String × String)
  isMixed : Bool

/-- verdictTextMap (error.go); absent keys give the Go zero value "". -/
def verdictTextMap (v : String) : String :=
  if v = "anthropic" then "Anthropic 官方 API"
  else if v = "bedrock" then "AWS Bedrock (Kiro)"
  else if v = "antigravity" then "Google Vertex AI (Antigravity)"
  else if v = "suspicious" then "疑似伪装 Anthropic"
  else if v = "unknown" then "无法确定"
  else ""

/-- The valid fingerprints of analyze: those with an empty error. -/
def validOf (fps : List Fingerprint) : List Fingerprint :=
  fps.filter (fun fp => fp.error == "")

/-- Proxy platform selection in analyze: first fingerprint with a
non-empty platform supplies platform and clues. -/
def firstPlatform (l : List Fingerprint) : String × List String :=
  match l.find? (fun fp => fp.proxyPlatform != "") with
  | some fp => (fp.proxyPlatform, fp.platformClues)
  | none => ("", [])

/-- Pass A of analyze, one fingerprint: the eight weighted signals, in
source order, accumulating scores and tagged evidence lines. -/
def scoreFingerprint (tag : String) (fp : Fingerprint) (st : AState) : AState :=
  let s := st.scores
  let ev := st.evidence
  -- 1. tool_use id (weight 5)
  let tid := truncStr fp.toolID 28
  let p1 : Scores × List String :=
    if fp.toolIDSource = "bedrock" then
      ({ s with bedrock := s.bedrock + 5 }, ev ++ [s!"{tag} tool_use id: {tid} -> tooluse_ (Bedrock/AG)"])
    else if fp.toolIDSource = "anthropic" then
      ({ s with anthropic := s.anthropic + 5 }, ev ++ [s!"{tag} tool_use id: {tid} -> toolu_ (Anthropic)"])
    else if fp.toolIDSource = "vertex" then
      ({ s with antigravity := s.antigravity + 5 }, ev ++ [s!"{tag} tool_use id: {tid} -> tool_N (Vertex AI)"])
    else if fp.toolIDSource = "rewritten" then
      (s, if fp.toolID ≠ "" then ev ++ [s!"{tag} tool_use id: {tid} -> 被改写"] else ev)
    else (s, ev)
  let s := p1.1
  let ev := p1.2
  -- 2. thinking signature
  let sl := fp.thinkingSigLen
  let p2 : Scores × List String :=
    if fp.thinkingSigClass = "short" then
      (s, ev ++ [s!"{tag} thinking sig: (len={sl}) -> 签名截断"])
    else if fp.thinkingSigClass = "vertex" then
      ({ s with antigravity := s.antigravity + 5 }, ev ++ [s!"{tag} thinking sig: (len={sl}) -> claude# 前缀 (Vertex AI)"])
    else if fp.thinkingSigClass = "normal" then
      (s, ev ++ [s!"{tag} thinking sig: (len={sl}) -> 正常签名"])
    else if fp.thinkingSigClass = "none" then
      (s, if fp.probeType = "thinking" then ev ++ [s!"{tag} thinking sig: 无签名"] else ev)
    else (s, ev)
  let s := p2.1
  let ev := p2.2
  -- 3. message id
  let mid := truncStr fp.msgID 28
  let p3 : Scores × List String :=
    if fp.msgIDSource = "anthropic" then
      ({ s with anthropic := s.anthropic + 2 }, ev ++ [s!"{tag} message id: {mid} -> msg_<base62> (Anthropic)"])
    else if fp.msgIDSource = "antigravity" then
      (s, ev ++ [s!"{tag} message id: {mid} -> msg_<UUID> (非原生)"])
    else if fp.msgIDSource = "vertex" then
      ({ s with antigravity := s.antigravity + 6 }, ev ++ [s!"{tag} message id: {mid} -> req_vrtx_ (Vertex AI)"])
    else if fp.msgIDSource = "rewritten" then
      (s, ev ++ [s!"{tag} message id: {mid} -> 被改写"])
    else (s, ev)
  let s := p3.1
  let ev := p3.2
  -- 4. model format
  let mdl := fp.model
  let p4 : Scores × List String :=
    if fp.modelSource = "kiro" then
      ({ s with bedrock := s.bedrock + 8 }, ev ++ [s!"{tag} model: {mdl} -> kiro-* (Kiro 逆向铁证)"])
    else if fp.modelSource = "bedrock" then
      ({ s with bedrock := s.bedrock + 3 }, ev ++ [s!"{tag} model: {mdl} -> anthropic.* (Bedrock)"])
    else (s, ev)
  let s := p4.1
  let ev := p4.2
  -- 5. service_tier / inference_geo / cache_creation
  let tier := fp.serviceTier
  let p5 : Scores × List String :=
    if fp.hasServiceTier then
      ({ s with anthropic := s.anthropic + 3 }, ev ++ [s!"{tag} service_tier: {tier} -> Anthropic 独有"])
    else (s, ev)
  let s := p5.1
  let ev := p5.2
  let geo := fp.inferenceGeo
  let p6 : Scores × List String :=
    if fp.hasInferenceGeo then
      ({ s with anthropic := s.anthropic + 2 }, ev ++ [s!"{tag} inference_geo: {geo} -> Anthropic 独有"])
    else (s, ev)
  let s := p6.1
  let ev := p6.2
  let p7 : Scores × List String :=
    if fp.hasCacheCreation then
      ({ s with anthropic := s.anthropic + 1 }, ev ++ [s!"{tag} cache_creation: 嵌套对象 -> Anthropic 新格式"])
    else (s, ev)
  let s := p7.1
  let ev := p7.2
  -- 6. usage style
  let p8 : Scores × List String :=
    if fp.usageStyle = "camelCase" then
      ({ s with bedrock := s.bedrock + 2 }, ev ++ [s!"{tag} usage: camelCase (Bedrock)"])
    else (s, ev)
  let s := p8.1
  let ev := p8.2
  -- 7. AWS headers
  let p9 : Scores × List String :=
    if fp.hasAWSHeaders then
      ({ s with bedrock := s.bedrock + 3 }, ev ++ [s!"{tag} AWS headers detected"])
    else (s, ev)
  let s := p9.1
  let ev := p9.2
  -- 8. Anthropic rate-limit headers
  let p10 : Scores × List String :=
    if fp.hasAnthropicHdrs then
      ({ s with anthropic := s.anthropic + 2 }, ev ++ [s!"{tag} Anthropic rate-limit headers detected"])
    else (s, ev)
  { st with scores := p10.1, evidence := p10.2 }

/-- Pass A of analyze over all valid fingerprints, tags [R1], [R2], ... -/
def passA (l : List Fingerprint) (st : AState) : AState :=
  l.enum.foldl (fun st p => scoreFingerprint s!"[R{p.1 + 1}]" p.2 st) st

/-- Any valid fingerprint with model_source kiro. -/
def hasKiroModel (l : List Fingerprint) : Bool :=
  l.any (fun fp => fp.modelSource == "kiro")

/-- toolusePoints of the second pass: 5 per fingerprint whose
tool_id_source is bedrock. -/
def toolusePointsOf (l : List Fingerprint) : Int :=
  5 * (l.countP (fun fp => fp.toolIDSource == "bedrock") : Int)

/-- Pass B of analyze: tooluse_ attribution correction. -/
def passB (l : List Fingerprint) (st : AState) : AState :=
  if hasKiroModel l = false ∧ 0 < st.scores.antigravity ∧ 0 < st.scores.bedrock then
    let tp := toolusePointsOf l
    if 4 ≤ st.scores.antigravity then
      { st with
        scores := { st.scores with antigravity := st.scores.antigravity + tp, bedrock := st.scores.bedrock - tp },
        evidence := st.evidence ++ [s!"[修正] tooluse_ 分数 {tp} 从 Bedrock 转移到 Antigravity"] }
    else st
  else st

/-- Kiro note of analyze: msg_<UUID> attributed to Kiro rewriting
(evidence only). -/
def kiroNote (l : List Fingerprint) (st : AState) : AState :=
  if hasKiroModel l = true then
    let c : Nat := l.countP (fun fp => fp.msgIDSource == "antigravity")
    if 0 < c then
      { st with evidence := st.evidence ++ [s!"[修正] msg_<UUID> x{c} 归属 Kiro 中转改写 (非 Antigravity)"] }
    else st
  else st

/-- Any valid fingerprint from a thinking probe. -/
def hasThinkingProbe (l : List Fingerprint) : Bool :=
  l.any (fun fp => fp.probeType == "thinking")

/-- Pass C of analyze: missing-field negative evidence, with the three
missing flags and penalties -3 / -2 / -3 on anthropic. -/
def passC (l : List Fingerprint) (st : AState) : AState :=
  if 0 < st.scores.anthropic ∧ st.scores.bedrock = 0 ∧ st.scores.antigravity = 0 then
    let anyInferenceGeo := l.any (fun fp => fp.hasInferenceGeo)
    let anyCacheObj := l.any (fun fp => fp.hasCacheCreation)
    let st1 :=
      if anyInferenceGeo = false then
        { st with scores := { st.scores with anthropic := st.scores.anthropic - 3 },
                  flags := st.flags ++ ["inference_geo"],
                  evidence := st.evidence ++ ["[缺失] inference_geo 未出现 (Anthropic 官方必有字段)"] }
      else st
    let st2 :=
      if anyCacheObj = false then
        { st1 with scores := { st1.scores with anthropic := st1.scores.anthropic - 2 },
                   flags := st1.flags ++ ["cache_creation_obj"],
                   evidence := st1.evidence ++ ["[缺失] cache_creation 嵌套对象未出现"] }
      else st1
    if hasThinkingProbe l = true then
      let anyThinkingSig := l.any (fun fp => fp.probeType == "thinking" && decide (0 < fp.thinkingSigLen))
      if anyThinkingSig = false then
        { st2 with scores := { st2.scores with anthropic := st2.scores.anthropic - 3 },
                   flags := st2.flags ++ ["thinking_signature"],
                   evidence := st2.evidence ++ ["[缺失] thinking signature 为空 (真 Anthropic thinking 轮应有 len 200+ 签名)"] }
      else st2
    else st2
  else st

/-- Final clamp of analyze: negative buckets are reset to 0. -/
def clampScores (s : Scores) : Scores :=
  { anthropic := max s.anthropic 0, bedrock := max s.bedrock 0, antigravity := max s.antigravity 0 }

/-- Winner loop of the verdict pass: start from the anthropic entry and
replace only on a strictly greater score, iterating bedrock then
antigravity. Returns (winner, maxScore). -/
def winnerOf (s : Scores) : String × Int :=
  let wm : String × Int := ("anthropic", s.anthropic)
  let wm := if wm.2 < s.bedrock then ("bedrock", s.bedrock) else wm
  if wm.2 < s.antigravity then ("antigravity", s.antigravity) else wm

/-- Go math.Round: round half away from zero. -/
def mathRound (q : ℚ) : Int :=
  if 0 ≤ q then ⌊q + 1/2⌋ else -⌊(1/2 : ℚ) - q⌋

/-- Floor of log2 computed with explicit fuel (the number itself
suffices); the core library version is defined by well-founded recursion
and does not reduce inside the kernel. -/
def natLog2Aux : Nat → Nat → Nat
  | 0, _ => 0
  | fuel + 1, n => if 2 ≤ n then natLog2Aux fuel (n / 2) + 1 else 0

/-- Floor of log2 on Nat (0 for input 0). -/
def natLog2 (n : Nat) : Nat := natLog2Aux n n

/-- Exact binary exponent of the positive rational a / b * 2^s: the
bit-length difference narrows it to two candidates and one exact integer
comparison decides between them. -/
def flExp (a b : Nat) (s : Int) : Int :=
  let d : Int := (natLog2 a : Int) - (natLog2 b : Int)
  (if 0 ≤ d then (if b * 2 ^ d.toNat ≤ a then d else d - 1)
   else (if b ≤ a * 2 ^ (-d).toNat then d else d - 1)) + s

/-- Rounding of num / den to the nearest integer, ties to even. -/
def nearestEven (num den : Nat) : Nat :=
  let q := num / den
  let r := num % den
  if 2 * r < den then q
  else if den < 2 * r then q + 1
  else if q % 2 = 0 then q else q + 1

/-- IEEE-754 binary64 rounding (round to nearest, ties to even) of the
nonnegative rational a / b * 2^s, as a mantissa/exponent pair whose
value is mantissa * 2^exponent. Normal results use the quantum
2^(e - 52) for exact exponent e; results below 2^-1022 use the
subnormal quantum 2^-1074. Every float64 operation in the confidence
expression (int conversion, division, multiplication) is correctly
rounded, so each is this function applied to the exact rational of its
operands. Overflow to infinity (at and above 2^1024) is not modelled:
the quotient max/total is at most 1, and the later values stay around
100, far below the overflow threshold. -/
def flDyadic (a b : Nat) (s : Int) : Nat × Int :=
  if a = 0 then (0, 0)
  else
    let e := flExp a b s
    let u : Int := if -1022 ≤ e then e - 52 else -1074
    (if 0 ≤ s - u then nearestEven (a * 2 ^ (s - u).toNat) b
     else nearestEven a (b * 2 ^ (u - s).toNat), u)

/-- Exact rational value of a dyadic mantissa/exponent pair. -/
def dyVal (p : Nat × Int) : ℚ := (p.1 : ℚ) * (2 : ℚ) ^ p.2

/-- Go math.Round on a nonnegative float64 given as a dyadic pair:
round half away from zero to an integer. -/
def dyRoundHalfAway (p : Nat × Int) : Nat :=
  if 0 ≤ p.2 then p.1 * 2 ^ p.2.toNat
  else if 2 ^ (-p.2).toNat ≤ 2 * (p.1 % 2 ^ (-p.2).toNat) then p.1 / 2 ^ (-p.2).toNat + 1
  else p.1 / 2 ^ (-p.2).toNat

/-- The confidence expression of analyze,
math.Round(float64(maxScore)/float64(total)*100) / 100, evaluated step
by step in binary64 on nonnegative scores: the two int-to-float64
conversions, the correctly rounded division, the correctly rounded
product with 100 (exactly representable), math.Round on the exact value
of its argument (the integer result is again exactly representable at
every magnitude reached here), and the correctly rounded division by
100. -/
def goConfDyadic (m t : Nat) : Nat × Int :=
  let fm := flDyadic m 1 0
  let ft := flDyadic t 1 0
  let q1 := flDyadic fm.1 ft.1 (fm.2 - ft.2)
  let q2 := flDyadic (100 * q1.1) 1 q1.2
  flDyadic (dyRoundHalfAway q2) 100 0

/-- Exact rational value of the float64 confidence; the scores fed in by
the verdict pass are nonnegative after the clamp, so the Int arguments
pass through toNat unchanged. -/
def goConfidence (m t : Int) : ℚ := dyVal (goConfDyadic m.toNat t.toNat)

/-- Decidable observer: the value of a dyadic pair is at most 1. -/
def dyLE1 (p : Nat × Int) : Bool :=
  if 0 ≤ p.2 then decide (p.1 * 2 ^ p.2.toNat ≤ 1) else decide (p.1 ≤ 2 ^ (-p.2).toNat)

/-- State of analyze after pass A (with the platform evidence line
already in place, as in the source). -/
def stateA (fps : List Fingerprint) : AState :=
  let l := validOf fps
  let plat := (firstPlatform l).1
  let ev0 := if plat ≠ "" then [s!"中转平台: {plat}"] else []
  passA l ⟨⟨0, 0, 0⟩, [], ev0⟩

/-- State of analyze after pass B. -/
def stateB (fps : List Fingerprint) : AState :=
  passB (validOf fps) (stateA fps)

/-- State of analyze after the kiro note, pass C and the clamp. -/
def analyzeChain (fps : List Fingerprint) : AState :=
  let st := passC (validOf fps) (kiroNote (validOf fps) (stateB fps))
  { st with scores := clampScores st.scores }

/-- Verdict pass of analyze: (verdict, confidence, suspicious, evidence). -/
def passD (st : AState) : String × ℚ × Bool × List String :=
  let total := scoresTotal st.scores
  if total = 0 then
    if st.flags ≠ [] then
      ("anthropic", 0, true, st.evidence ++ ["[!] 正面分数被缺失扣分抵消，高度可疑伪装 Anthropic"])
    else
      ("unknown", 0, false, st.evidence ++ ["未获取到有效指纹信号"])
  else
    let wm := winnerOf st.scores
    let conf : ℚ := goConfidence wm.2 total
    (wm.1, conf, decide (wm.1 = "anthropic" ∧ 2 ≤ st.flags.length), st.evidence)

/-- analyze (error.go): multi-round three-source analysis of the
fingerprints collected for one model. -/
def analyze (fingerprints : List Fingerprint) (model : String) : DetectResult :=
  let validFPs := validOf fingerprints
  if validFPs.length = 0 then
    { verdict := "unknown", verdictText := verdictTextMap "unknown", confidence := 0,
      scores := ⟨0, 0, 0⟩, evidence := ["所有探测均失败"], fingerprints := fingerprints,
      model := model, avgLatencyMs := 0, proxyPlatform := "", platformClues := [] }
  else
    let avgLatencyMs :=
      Int.tdiv (validFPs.foldl (fun acc fp => acc + fp.latencyMs) 0) (validFPs.length : Int)
    let pc := firstPlatform validFPs
    let st := analyzeChain fingerprints
    let vd := passD st
    let susp := vd.2.2.1
    let flagsN := st.flags.length
    let flagsS := String.intercalate ", " st.flags
    let verdict := if susp then "suspicious" else vd.1
    let ev :=
      if susp then
        vd.2.2.2 ++
          [s!"[!!] 疑似伪装 Anthropic: {flagsN} 个必有字段缺失 ({flagsS})",
           "[!!] 中转站可能重写了 tool_id 前缀并注入 service_tier，但无法伪造 inference_geo 和 cache_creation 嵌套对象"]
      else vd.2.2.2
    let vt := verdictTextMap verdict
    { verdict := verdict, verdictText := if vt = "" then verdict else vt, confidence := vd.2.1,
      scores := st.scores, evidence := ev, fingerprints := fingerprints, model := model,
      avgLatencyMs := avgLatencyMs, proxyPlatform := pc.1, platformClues := pc.2 }

/-- Header keyword lists (error.go): awsHeaderKeywords. -/
def awsHeaderKeywords : List String := ["x-amzn", "x-amz-", "bedrock"]

/-- Header keyword lists (error.go): anthropicHeaderKeywords. -/
def anthropicHeaderKeywords : List String := ["anthropic-ratelimit", "x-ratelimit", "retry-after"]

/-- http.Header.Get: first value of the canonical key (the model takes
header keys already in Go's canonical form, as net/http stores them). -/
def headerGet (headers : List (String × List String)) (k : String) : String :=
  match headers.find? (fun kv => kv.1 == k) with
  | some (_, v :: _) => v
  | _ => ""

/-- AccountHub clue loop of detectProxyPlatform: collect trimmed
comma-separated parts containing accounthub or pool, stopping once the
clue list has reached 5 entries (checked after appending). -/
def accountHubClues : List String → List String → List String
  | [], clues => clues
  | part :: rest, clues =>
    let p := strTrim part
    let pl := strLower p
    if strContains pl "accounthub" || strContains pl "pool" then
      let clues' := clues ++ [p]
      if 5 ≤ clues'.length then clues' else accountHubClues rest clues'
    else accountHubClues rest clues

/-- detectProxyPlatform (error.go): platform and clues from response
headers; the header list models one iteration order of the Go map. -/
def detectProxyPlatform (headers : List (String × List String)) : String × List String :=
  let pc1 := headers.foldl (fun (acc : String × List String) kv =>
      let kl := strLower kv.1
      let acc := if strContains kl "aidistri" then ("Aidistri", acc.2 ++ ["X-Aidistri-Request-Id"]) else acc
      if strContains kl "one-api" || strContains kl "new-api" then
        ("OneAPI/NewAPI", acc.2 ++ ["OneAPI header detected"])
      else acc)
    ("", [])
  let cors := headerGet headers "Access-Control-Allow-Headers"
  let pc2 :=
    if strContains (strLower cors) "accounthub" then
      (if pc1.1 = "" then "AccountHub" else pc1.1, accountHubClues (strSplitComma cors) pc1.2)
    else pc1
  let pc3 := headers.foldl (fun acc kv =>
      kv.2.foldl (fun (acc : String × List String) v =>
        if strContains (strLower kv.1) "openrouter" || strContains (strLower v) "openrouter" then
          ("OpenRouter", acc.2 ++ ["OpenRouter header detected"])
        else acc) acc) pc2
  if strLower (headerGet headers "Server") = "cloudflare" then
    let cfRay := headerGet headers "Cf-Ray"
    if cfRay ≠ "" then (pc3.1, pc3.2 ++ [s!"CF-Ray: {cfRay}"]) else pc3
  else pc3

/-- A decoded JSON value (the Go any tree produced by common.Unmarshal
into map[string]any; numbers are exact here). -/
inductive JValue where
  | jnull
  | jbool (b : Bool)
  | jnum (q : ℚ)
  | jstr (s : String)
  | jarr (xs : List JValue)
  | jobj (fields : List (String × JValue))

/-- Lookup in a decoded JSON object; encoding/json keeps the last
duplicate key. -/
def jlookup (fields : List (String × JValue)) (k : String) : Option JValue :=
  (fields.reverse.find? (fun kv => kv.1 == k)).map (fun kv => kv.2)

/-- Go type assertion v.(string): the string value, or the zero value "". -/
def jstrD : Option JValue → String
  | some (.jstr s) => s
  | _ => ""

/-- Go interface comparison bm["type"] == "tool_use": true iff the field
is a string with that exact value. -/
def isTypeTag (bm : List (String × JValue)) (t : String) : Bool :=
  match jlookup bm "type" with
  | some (.jstr s) => s == t
  | _ => false

/-- Go fmt.Sprintf("%v", x) on a decoded JSON value. Strings, booleans
and nil are exact; numbers are exact for integral values (the detector
never constrains this text, it only flows into evidence lines). -/
def goFormatV : JValue → String
  | .jstr s => s
  | .jbool b => if b then "true" else "false"
  | .jnull => "<nil>"
  | .jnum q => if q.den = 1 then toString q.num else toString q
  | .jarr _ => "[]"
  | .jobj _ => "map[]"

/-- Content-block loop of probeOnce: tool_use blocks set tool id and its
source classification, thinking blocks set signature length and class;
later blocks overwrite earlier ones, and an empty tool id leaves the
previous source classification in place, as in the source. -/
def contentStep (fp : Fingerprint) (block : JValue) : Fingerprint :=
  match block with
  | .jobj bm =>
    let fp :=
      if isTypeTag bm "tool_use" then
        let tid := jstrD (jlookup bm "id")
        let fp := { fp with toolID := tid }
        if strStartsWith tid "tooluse_" then { fp with toolIDSource := "bedrock" }
        else if strStartsWith tid "toolu_" then { fp with toolIDSource := "anthropic" }
        else if toolNMatch tid then { fp with toolIDSource := "vertex" }
        else if tid ≠ "" then { fp with toolIDSource := "rewritten" }
        else fp
      else fp
    if isTypeTag bm "thinking" then
      let sig := jstrD (jlookup bm "signature")
      { fp with thinkingSigLen := sig.utf8ByteSize, thinkingSigClass := classifyThinkingSig sig }
    else fp
  | _ => fp

/-- The content-block loop of probeOnce over all blocks. -/
def processContent (blocks : List JValue) (fp : Fingerprint) : Fingerprint :=
  blocks.foldl contentStep fp

/-- Section 1 of the body parsing of probeOnce: the content-block loop
(skipped when "content" is absent or not an array). -/
def contentUpdate (fields : List (String × JValue)) (fp : Fingerprint) : Fingerprint :=
  match jlookup fields "content" with
  | some (.jarr blocks) => processContent blocks fp
  | _ => fp

/-- Section 2 of the body parsing of probeOnce: message id. -/
def msgIDUpdate (fields : List (String × JValue)) (fp : Fingerprint) : Fingerprint :=
  let mid := jstrD (jlookup fields "id")
  let mc := classifyMsgID mid
  { fp with msgID := mid, msgIDSource := mc.1, msgIDFormat := mc.2 }

/-- Section 3 of the body parsing of probeOnce: model and its source. -/
def modelUpdate (fields : List (String × JValue)) (fp : Fingerprint) : Fingerprint :=
  let mdl := jstrD (jlookup fields "model")
  let fp := { fp with model := mdl }
  if strStartsWith mdl "kiro-" then { fp with modelSource := "kiro" }
  else if strStartsWith mdl "anthropic." then { fp with modelSource := "bedrock" }
  else if mdl ≠ "" then { fp with modelSource := "anthropic" }
  else fp

/-- Section 4 of the body parsing of probeOnce: usage style, service
tier, inference geo and the nested cache_creation object. -/
def usageUpdate (fields : List (String × JValue)) (fp : Fingerprint) : Fingerprint :=
  match jlookup fields "usage" with
  | some (.jobj usage) =>
    let fp :=
      if (jlookup usage "inputTokens").isSome then { fp with usageStyle := "camelCase" }
      else if (jlookup usage "input_tokens").isSome then { fp with usageStyle := "snake_case" }
      else fp
    let fp :=
      match jlookup usage "service_tier" with
      | some st => { fp with hasServiceTier := true, serviceTier := goFormatV st }
      | none => fp
    let fp :=
      match jlookup usage "inference_geo" with
      | some ig => { fp with hasInferenceGeo := true, inferenceGeo := goFormatV ig }
      | none => fp
    match jlookup usage "cache_creation" with
    | some (.jobj _) => { fp with hasCacheCreation := true }
    | _ => fp
  | _ => fp

/-- Outcome of reading the response body in probeOnce. -/
inductive BodyOutcome where
  | readErr
  | notJSON
  | json (fields : List (String × JValue))

/-- Oracle for one HTTP probe: transport error (with whether the outer
context had already expired), a non-200 status (with the 200-byte body
snippet), or a 200 response with headers, measured latency and body. -/
inductive ProbeOutcome where
  | transportErr (ctxExpired : Bool)
  | httpErr (status : Nat) (snippet : String)
  | ok (headers : List (String × List String)) (latencyMs : Int) (body : BodyOutcome)

/-- Rate-limit header extraction of probeOnce, one header entry
(strconv.Atoi on the first value; the reset header is stored verbatim). -/
def ratelimitStep (fp : Fingerprint) (kv : String × List String) : Fingerprint :=
  let kl := strLower kv.1
  if kl = "anthropic-ratelimit-input-tokens-limit" ∧ kv.2 ≠ [] then
    match atoi (kv.2.headD "") with
    | some n => { fp with ratelimitInputLimit := n }
    | none => fp
  else if kl = "anthropic-ratelimit-input-tokens-remaining" ∧ kv.2 ≠ [] then
    match atoi (kv.2.headD "") with
    | some n => { fp with ratelimitInputRemaining := n }
    | none => fp
  else if kl = "anthropic-ratelimit-input-tokens-reset" ∧ kv.2 ≠ [] then
    { fp with ratelimitInputReset := kv.2.headD "" }
  else fp

/-- Rate-limit header extraction loop of probeOnce. -/
def extractRatelimit (headers : List (String × List String)) (fp : Fingerprint) : Fingerprint :=
  headers.foldl ratelimitStep fp

/-- probeOnce (error.go), given the probe oracle: builds the Fingerprint
exactly as the source does after client.Do returns. -/
def probeOnceFp (probeType modelReq : String) (oc : ProbeOutcome) : Fingerprint :=
  let fp0 : Fingerprint := { probeType := probeType, modelRequested := modelReq }
  match oc with
  | .transportErr expired =>
    { fp0 with error := if expired then "detection timed out" else "request failed" }
  | .httpErr status snippet =>
    { fp0 with error := s!"HTTP {status}: {snippet}" }
  | .ok headers latency body =>
    let fp := { fp0 with latencyMs := latency }
    let fp := { fp with
      hasAWSHeaders := headers.any (fun kv => awsHeaderKeywords.any (fun kw => strContains (strLower kv.1) kw)),
      hasAnthropicHdrs := headers.any (fun kv => anthropicHeaderKeywords.any (fun kw => strContains (strLower kv.1) kw)) }
    let pc := detectProxyPlatform headers
    let fp := { fp with proxyPlatform := pc.1, platformClues := pc.2 }
    let fp := extractRatelimit headers fp
    match body with
    | .readErr => { fp with error := "failed to read response" }
    | .notJSON => { fp with error := "response body not JSON" }
    | .json fields =>
      let fp := contentUpdate fields fp
      let fp := msgIDUpdate fields fp
      let fp := modelUpdate fields fp
      let fp := usageUpdate fields fp
      { fp with stopReason := jstrD (jlookup fields "stop_reason") }

/-- Monotone non-increasing check of verifyRatelimitDynamic (the Go loop
fails exactly when some consecutive pair increases). -/
def monotoneDecB : List Int → Bool
  | a :: b :: t => decide (b ≤ a) && monotoneDecB (b :: t)
  | _ => true

/-- Sample collection loop of verifyRatelimitDynamic: a sample per probe
with no error and a positive parsed remaining value. -/
def collectSamples (fps : List Fingerprint) : List RLSample :=
  fps.foldl (fun acc fp =>
    if fp.error = "" ∧ 0 < fp.ratelimitInputRemaining then
      acc ++ [⟨fp.ratelimitInputRemaining, fp.ratelimitInputReset⟩]
    else acc) []

/-- Decision part of verifyRatelimitDynamic on the collected samples. -/
def rlDecide (samples : List RLSample) : String × String :=
  match samples with
  | [] => ("unavailable", "ratelimit header 不可用（样本不足）")
  | [_] => ("unavailable", "ratelimit header 不可用（样本不足）")
  | s0 :: s1 :: rest =>
    let all := s0 :: s1 :: rest
    let allSame := (s1 :: rest).all (fun s => s.remaining == s0.remaining)
    let vals := all.map (fun s => s.remaining)
    let r0 := s0.remaining
    let rLast := (all.getLastD s0).remaining
    let totalDrop := r0 - rLast
    if allSame then ("static", s!"remaining 固定为 {r0}，疑似伪造")
    else if monotoneDecB vals && decide (0 < totalDrop) then
      ("dynamic", s!"remaining 单调递减 {r0} → {rLast} (drop={totalDrop})，真实 ratelimit")
    else ("dynamic", s!"remaining 有变化但非单调 ({r0} → {rLast})，可能真实")

/-- verifyRatelimitDynamic (error.go), with the executed simple probes
supplied as oracle outcomes (context expiry truncates the list). -/
def verifyRatelimitDynamic (model : String) (shotOutcomes : List ProbeOutcome) : RLVerify :=
  let fps := shotOutcomes.map (probeOnceFp "simple" model)
  let samples := collectSamples fps
  let vd := rlDecide samples
  { verdict := vd.1, detail := vd.2, samples := samples }

/-- Outcome of one call of the function returned by safeDialer: either an
error (no connection attempted) or a dial of the original host:port. -/
inductive DialOutcome where
  | error (msg : String)
  | dial
deriving DecidableEq, Repr

/-- net v4InV6Prefix: the 12-byte prefix of an IPv4-mapped IPv6 address. -/
def v4InV6Pre : List Nat := [0, 0, 0, 0, 0, 0, 0, 0, 0, 0, 0xff, 0xff]

/-- net.IPv6loopback ::1. -/
def iPv6loopbackBytes : List Nat := [0, 0, 0, 0, 0, 0, 0, 0, 0, 0, 0, 0, 0, 0, 0, 1]

/-- net.IPv4zero 0.0.0.0 (16-byte form, as net.IPv4 builds it). -/
def iPv4zeroBytes : List Nat := v4InV6Pre ++ [0, 0, 0, 0]

/-- net.IPv6unspecified ::. -/
def iPv6unspecifiedBytes : List Nat := List.replicate 16 0

/-- net.ParseIP("169.254.169.254"): the 16-byte IPv4-mapped form. -/
def metadataIPBytes : List Nat := v4InV6Pre ++ [169, 254, 169, 254]

/-- net.IP.Equal (Go net/ip.go): byte equality, with 4-byte vs 16-byte
comparison through the IPv4-mapped prefix. -/
def ipEqual (ip x : List Nat) : Bool :=
  if ip.length = x.length then ip == x
  else if ip.length = 4 ∧ x.length = 16 then (x.take 12 == v4InV6Pre) && (ip == x.drop 12)
  else if ip.length = 16 ∧ x.length = 4 then (ip.take 12 == v4InV6Pre) && (ip.drop 12 == x)
  else false

/-- net.IP.To4 (Go net/ip.go). -/
def to4 (ip : List Nat) : Option (List Nat) :=
  if ip.length = 4 then some ip
  else if ip.length = 16 ∧ ip.take 12 = v4InV6Pre then some (ip.drop 12)
  else none

/-- Byte access on a modelled IP (indices are always in range at the
call sites; out of range gives 0). -/
def byteAt (l : List Nat) (i : Nat) : Nat := l.getD i 0

/-- net.IP.IsLoopback. -/
def isLoopback (ip : List Nat) : Bool :=
  match to4 ip with
  | some ip4 => byteAt ip4 0 == 127
  | none => ipEqual ip iPv6loopbackBytes

/-- net.IP.IsPrivate (RFC 1918 for IPv4, ULA fc00::/7 for IPv6). -/
def isPrivate (ip : List Nat) : Bool :=
  match to4 ip with
  | some ip4 =>
    byteAt ip4 0 == 10 ||
    (byteAt ip4 0 == 172 && (byteAt ip4 1 &&& 0xf0) == 16) ||
    (byteAt ip4 0 == 192 && byteAt ip4 1 == 168)
  | none => ip.length == 16 && (byteAt ip 0 &&& 0xfe) == 0xfc

/-- net.IP.IsLinkLocalUnicast. -/
def isLinkLocalUnicast (ip : List Nat) : Bool :=
  match to4 ip with
  | some ip4 => byteAt ip4 0 == 169 && byteAt ip4 1 == 254
  | none => ip.length == 16 && byteAt ip 0 == 0xfe && (byteAt ip 1 &&& 0xc0) == 0x80

/-- net.IP.IsLinkLocalMulticast. -/
def isLinkLocalMulticast (ip : List Nat) : Bool :=
  match to4 ip with
  | some ip4 => byteAt ip4 0 == 224 && byteAt ip4 1 == 0 && byteAt ip4 2 == 0
  | none => ip.length == 16 && byteAt ip 0 == 0xff && (byteAt ip 1 &&& 0x0f) == 0x02

/-- net.IP.IsUnspecified. -/
def isUnspecified (ip : List Nat) : Bool :=
  ipEqual ip iPv4zeroBytes || ipEqual ip iPv6unspecifiedBytes

/-- The first rejection test of safeDialer: loopback, private,
link-local unicast or multicast, or unspecified. -/
def ipBlockedPrivate (ip : List Nat) : Bool :=
  isLoopback ip || isPrivate ip || isLinkLocalUnicast ip ||
  isLinkLocalMulticast ip || isUnspecified ip

/-- Membership in the full blocked set of safeDialer (either rejection
test fires). -/
def ipBlockedAny (ip : List Nat) : Bool :=
  ipBlockedPrivate ip || ipEqual ip metadataIPBytes

/-- safeDialer (error.go): loop over the resolved addresses; reject
private ranges with one message, the metadata endpoint with another;
dial only if no address was rejected. -/
def safeDialerCheck : List (List Nat) → DialOutcome
  | [] => .dial
  | ip :: rest =>
    if ipBlockedPrivate ip then .error "connection to private IP blocked"
    else if ipEqual ip metadataIPBytes then .error "connection to metadata endpoint blocked"
    else safeDialerCheck rest

/-- Oracle for one model of ScanMultipleModels: the availability check
failed, or it passed and DetectSingleModel returned the given result. -/
inductive ModelOutcome where
  | unavailable
  | detected (r : DetectResult)

/-- The unavailable DetectResult literal of ScanMultipleModels
(remaining fields are Go zero values). -/
def unavailableResult (model : String) : DetectResult :=
  { verdict := "unavailable", verdictText := "不可用", confidence := 0,
    scores := ⟨0, 0, 0⟩, evidence := [], fingerprints := [], model := model,
    avgLatencyMs := 0, proxyPlatform := "", platformClues := [] }

/-- Go map assignment m[k] = v on the association-list model. -/
def mapInsert (m : List (String × String)) (k v : String) : List (String × String) :=
  if m.any (fun kv => kv.1 == k) then
    m.map (fun kv => if kv.1 == k then (k, v) else kv)
  else m ++ [(k, v)]

/-- Mixed-channel test of ScanMultipleModels: more than one distinct
non-unavailable verdict among the summary values. -/
def mixedOf (summary : List (String × String)) : Bool :=
  decide (1 < (((summary.map (fun kv => kv.2)).filter (fun v => v != "unavailable")).dedup).length)

/-- Loop body of ScanMultipleModels for one model. -/
def scanStep (scan : ScanResult) (model : String) (oc : ModelOutcome) : ScanResult :=
  match oc with
  | .unavailable =>
    { scan with modelResults := scan.modelResults ++ [unavailableResult model],
                summary := mapInsert scan.summary model "unavailable" }
  | .detected r =>
    let scan := { scan with modelResults := scan.modelResults ++ [r],
                            summary := mapInsert scan.summary model r.verdict }
    if r.proxyPlatform ≠ "" ∧ scan.proxyPlatform = "" then
      { scan with proxyPlatform := r.proxyPlatform }
    else scan

/-- ScanMultipleModels (error.go): sequential loop over the models that
were actually processed before the deadline (supplied with their oracle
outcomes), then the mixed-channel computation over the summary values. -/
def scanMultipleModels (baseURL : String) (steps : List (String × ModelOutcome)) : ScanResult :=
  let scan0 : ScanResult :=
    { baseURL := baseURL, proxyPlatform := "", modelResults := [], summary := [], isMixed := false }
  let scan := steps.foldl (fun sc st => scanStep sc st.1 st.2) scan0
  { scan with isMixed := mixedOf scan.summary }

/-- The single-model branch of ProxyDetect: the DetectResult is wrapped
in a one-entry ScanResult with IsMixed set to false. -/
def proxyDetectSingleWrap (baseURL : String) (r : DetectResult) : ScanResult :=
  { baseURL := baseURL, proxyPlatform := r.proxyPlatform, modelResults := [r],
    summary := [(r.model, r.verdict)], isMixed := false }

/-- First bucket, in the order anthropic, bedrock, antigravity, whose
score attains the maximum — the tie-break described by the spec
(for comparison with the winner loop). -/
def specFirstMax (s : Scores) : String :=
  if s.anthropic = maxTri s then "anthropic"
  else if s.bedrock = maxTri s then "bedrock"
  else "antigravity"

/-- Spec-side reading for the rate-limit claim: the probe response
carries the anthropic-ratelimit-input-tokens-remaining header. -/
def specCarriesRemainingHeader : ProbeOutcome → Bool
  | .ok headers _ _ =>
    headers.any (fun kv => strLower kv.1 == "anthropic-ratelimit-input-tokens-remaining" && !kv.2.isEmpty)
  | _ => false

/-- Signature of the last thinking content block of a body, if any. -/
def lastThinkingSig : List JValue → Option String
  | [] => none
  | b :: bs =>
    match lastThinkingSig bs with
    | some s => some s
    | none =>
      match b with
      | .jobj bm => if isTypeTag bm "thinking" then some (jstrD (jlookup bm "signature")) else none
      | _ => none

/-- The content array of a decoded body (empty when absent or not an
array, in which case probeOnce skips the block loop). -/
def contentBlocksOf (fields : List (String × JValue)) : List JValue :=
  match jlookup fields "content" with
  | some (.jarr bs) => bs
  | _ => []

/-- Remaining values of the collected samples. -/
def rlRemainings (r : RLVerify) : List Int := r.samples.map (fun s => s.remaining)

/-- Concrete fingerprint: a Vertex-style tool id (+5 antigravity). -/
def fpVertexTool : Fingerprint := { toolIDSource := "vertex", toolID := "tool_0" }

/-- Concrete fingerprint: AWS headers and camelCase usage (+5 bedrock). -/
def fpAWSCamel : Fingerprint := { hasAWSHeaders := true, usageStyle := "camelCase" }

/-- Concrete fingerprint: a Bedrock-style tooluse_ id (+5 bedrock). -/
def fpToolBedrock : Fingerprint := { toolIDSource := "bedrock", toolID := "tooluse_abc" }

/-- Concrete fingerprint: a Vertex-style req_vrtx_ message id
(+6 antigravity). -/
def fpMsgVertex : Fingerprint := { msgIDSource := "vertex", msgID := "req_vrtx_1" }

/-- Concrete fingerprint: an anthropic tool id and nothing else, so the
negative-evidence pass fires on it. -/
def fpAnthBare : Fingerprint := { toolIDSource := "anthropic", toolID := "toolu_abc" }

/-- Concrete fingerprint: an anthropic tool id together with the
markers the negative-evidence pass looks for. -/
def fpAnthFull : Fingerprint :=
  { toolIDSource := "anthropic", toolID := "toolu_abc",
    hasInferenceGeo := true, hasCacheCreation := true }

/-- Concrete fingerprint: anthropic tool id, anthropic message id and a
service tier (+10 anthropic). -/
def fp23a : Fingerprint :=
  { toolIDSource := "anthropic", toolID := "toolu_1",
    msgIDSource := "anthropic", msgID := "msg_a", hasServiceTier := true }

/-- Concrete fingerprint: anthropic tool id with the geo and cache
markers (+8 anthropic). -/
def fp23b : Fingerprint :=
  { toolIDSource := "anthropic", toolID := "toolu_2",
    hasInferenceGeo := true, hasCacheCreation := true }

/-- Concrete fingerprint: anthropic tool id next to camelCase usage and
AWS headers (+5 anthropic, +5 bedrock). -/
def fp23c : Fingerprint :=
  { toolIDSource := "anthropic", toolID := "toolu_3",
    usageStyle := "camelCase", hasAWSHeaders := true }

/-- Concrete fingerprint: bedrock tooluse_ id and camelCase usage
(+7 bedrock). -/
def fp23d : Fingerprint :=
  { toolIDSource := "bedrock", toolID := "tooluse_1", usageStyle := "camelCase" }

/-- Concrete fingerprint: bedrock tooluse_ id (+5 bedrock). -/
def fp23e : Fingerprint := { toolIDSource := "bedrock", toolID := "tooluse_2" }

/-- Five ordinary fingerprints reaching post-clamp scores anthropic 23,
bedrock 17, antigravity 0: pass B is inert (antigravity stays 0), pass C
is inert (bedrock is nonzero), and max/total is 23/40, where binary64
and exact rational rounding of the confidence disagree. -/
def fps23 : List Fingerprint := [fp23a, fp23b, fp23c, fp23d, fp23e]

/-- Detection result of an anthropic-looking model probe. -/
def scanCexResultA : DetectResult := analyze [fpAnthFull] "m"

/-- Detection result of a bedrock-looking probe of the same model name. -/
def scanCexResultB : DetectResult := analyze [fpToolBedrock] "m"

/-- A scan that probes the same model name twice with different
outcomes (reachable: the request model list admits duplicates and the
upstream may answer differently per invocation). -/
def scanCex : ScanResult :=
  scanMultipleModels "base" [("m", .detected scanCexResultA), ("m", .detected scanCexResultB)]

/-- Header list carrying the remaining rate-limit counter with value v. -/
def remainingHeader (v : String) : List (String × List String) :=
  [("Anthropic-Ratelimit-Input-Tokens-Remaining", [v])]

/-- Two successful probes whose responses carry the remaining header
with value 0. -/
def cex7Outcomes : List ProbeOutcome :=
  [.ok (remainingHeader "0") 0 (.json []), .ok (remainingHeader "0") 0 (.json [])]

/-- Two successful probes with decreasing remaining values. -/
def wit7Outcomes : List ProbeOutcome :=
  [.ok (remainingHeader "50000") 0 (.json []), .ok (remainingHeader "49000") 0 (.json [])]

/-- First remaining value among the collected samples (0 if none). -/
def rlHead (r : RLVerify) : Int := (rlRemainings r).headD 0

/-- Last remaining value among the collected samples (0 if none). -/
def rlLast (r : RLVerify) : Int := (rlRemainings r).getLastD 0

theorem clampScores_nonneg (s : Scores) :
    0 ≤ (clampScores s).anthropic ∧ 0 ≤ (clampScores s).bedrock ∧ 0 ≤ (clampScores s).antigravity :=
  ⟨le_max_right _ _, le_max_right _ _, le_max_right _ _⟩

theorem analyzeChain_nonneg (fps : List Fingerprint) :
    0 ≤ (analyzeChain fps).scores.anthropic ∧ 0 ≤ (analyzeChain fps).scores.bedrock ∧
    0 ≤ (analyzeChain fps).scores.antigravity :=
  clampScores_nonneg _

theorem validOf_length_ne (fps : List Fingerprint) (h : validOf fps ≠ []) :
    ¬ (validOf fps).length = 0 := by
  simpa [List.length_eq_zero] using h

theorem analyze_scores_eq (fps : List Fingerprint) (model : String) (h : validOf fps ≠ []) :
    (analyze fps model).scores = (analyzeChain fps).scores := by
  unfold analyze
  rw [if_neg (validOf_length_ne fps h)]

theorem analyze_verdict_eq (fps : List Fingerprint) (model : String) (h : validOf fps ≠ []) :
    (analyze fps model).verdict =
      (if (passD (analyzeChain fps)).2.2.1 then "suspicious" else (passD (analyzeChain fps)).1) := by
  unfold analyze
  rw [if_neg (validOf_length_ne fps h)]

theorem analyze_confidence_eq (fps : List Fingerprint) (model : String) (h : validOf fps ≠ []) :
    (analyze fps model).confidence = (passD (analyzeChain fps)).2.1 := by
  unfold analyze
  rw [if_neg (validOf_length_ne fps h)]

theorem analyze_nil_scores (fps : List Fingerprint) (model : String) (h : validOf fps = []) :
    (analyze fps model).scores = ⟨0, 0, 0⟩ := by
  unfold analyze
  rw [if_pos (by simp [h])]

theorem analyze_nil_confidence (fps : List Fingerprint) (model : String) (h : validOf fps = []) :
    (analyze fps model).confidence = 0 := by
  unfold analyze
  rw [if_pos (by simp [h])]

theorem winnerOf_eq (s : Scores) : winnerOf s = (specFirstMax s, maxTri s) := by
  rcases s with ⟨a, b, g⟩
  simp only [winnerOf, specFirstMax, maxTri, max_def]
  split_ifs <;> simp_all [Prod.mk.injEq] <;> omega

theorem winnerOf_ne_suspicious (s : Scores) : (winnerOf s).1 ≠ "suspicious" := by
  rw [winnerOf_eq]
  unfold specFirstMax
  split_ifs <;> simp

theorem mem_evidence_kiroNote (l : List Fingerprint) (st : AState) (x : String)
    (h : x ∈ st.evidence) : x ∈ (kiroNote l st).evidence := by
  simp only [kiroNote]
  split_ifs <;> simp [List.mem_append, h]

theorem mem_evidence_passC (l : List Fingerprint) (st : AState) (x : String)
    (h : x ∈ st.evidence) : x ∈ (passC l st).evidence := by
  simp only [passC]
  split_ifs <;> simp [List.mem_append, h]

theorem mem_evidence_passD (st : AState) (x : String)
    (h : x ∈ st.evidence) : x ∈ (passD st).2.2.2 := by
  simp only [passD]
  split_ifs <;> simp [List.mem_append, h]

theorem mem_evidence_analyze (fps : List Fingerprint) (model : String) (x : String)
    (hne : validOf fps ≠ []) (h : x ∈ (passD (analyzeChain fps)).2.2.2) :
    x ∈ (analyze fps model).evidence := by
  unfold analyze
  rw [if_neg (validOf_length_ne fps hne)]
  by_cases hs : (passD (analyzeChain fps)).2.2.1 = true
  · simp [hs, List.mem_append, h]
  · simp only [Bool.not_eq_true] at hs
    simp [hs, h]

/-- C9: every entry of the scores map in the DetectResult returned by
analyze is non-negative: the final clamp guarantees it even though the
pass B transfer and the pass C penalties can drive intermediate values
negative. -/
theorem c9_scores_nonneg (fps : List Fingerprint) (model : String) :
    0 ≤ (analyze fps model).scores.anthropic ∧
    0 ≤ (analyze fps model).scores.bedrock ∧
    0 ≤ (analyze fps model).scores.antigravity := by
  by_cases h : validOf fps = []
  · rw [analyze_nil_scores fps model h]
    exact ⟨le_refl 0, le_refl 0, le_refl 0⟩
  · rw [analyze_scores_eq fps model h]
    exact analyzeChain_nonneg fps

/-- C1: SSRF safety — whenever DNS resolution yields any address that is
loopback, private (RFC 1918 / ULA), link-local unicast or multicast,
unspecified, or equal to 169.254.169.254, the safe dialer returns an
error (no connection is attempted) whose message contains "private IP"
or "metadata". -/
theorem c1_ssrf_safety (ips : List (List Nat))
    (h : ∃ ip, ip ∈ ips ∧ ipBlockedAny ip = true) :
    ∃ msg, safeDialerCheck ips = .error msg ∧
      (strContains msg "private IP" = true ∨ strContains msg "metadata" = true) := by
  induction ips with
  | nil =>
    rcases h with ⟨ip, hm, _⟩
    cases hm
  | cons ip rest ih =>
    by_cases hb : ipBlockedPrivate ip = true
    · exact ⟨"connection to private IP blocked", by simp [safeDialerCheck, hb], Or.inl (by decide)⟩
    · by_cases hm : ipEqual ip metadataIPBytes = true
      · refine ⟨"connection to metadata endpoint blocked", ?_, Or.inr (by decide)⟩
        simp [safeDialerCheck, hb, hm]
      · have hrest : ∃ w, w ∈ rest ∧ ipBlockedAny w = true := by
          rcases h with ⟨w, hw, hbw⟩
          rcases List.mem_cons.mp hw with rfl | hmem
          · exfalso
            unfold ipBlockedAny at hbw
            simp [hb, hm] at hbw
          · exact ⟨w, hmem, hbw⟩
        rcases ih hrest with ⟨msg, h1, h2⟩
        exact ⟨msg, by simp [safeDialerCheck, hb, hm, h1], h2⟩

/-- C1 witness: resolving to the RFC 1918 address 10.0.0.1 is blocked
with a message containing "private IP". -/
theorem c1_ssrf_safety_witness :
    ∃ msg, safeDialerCheck [[10, 0, 0, 1]] = .error msg ∧
      (strContains msg "private IP" = true ∨ strContains msg "metadata" = true) :=
  c1_ssrf_safety [[10, 0, 0, 1]] ⟨[10, 0, 0, 1], by decide, by decide⟩

/-- C10: the metadata branch of the safe dialer is unreachable — every
resolved address equal to 169.254.169.254 (4-byte or IPv4-mapped) is
link-local unicast and already rejected by the preceding check, so every
blocked dial reports exactly "connection to private IP blocked". -/
theorem c10_metadata_unreachable :
    (∀ ip : List Nat, ipEqual ip metadataIPBytes = true → isLinkLocalUnicast ip = true) ∧
    (∀ (ips : List (List Nat)) (msg : String),
      safeDialerCheck ips = .error msg → msg = "connection to private IP blocked") := by
  have key : ∀ ip : List Nat, ipEqual ip metadataIPBytes = true → isLinkLocalUnicast ip = true := by
    intro ip h
    unfold ipEqual at h
    split_ifs at h with h1 h2 h3
    · have hip : ip = metadataIPBytes := by simpa using h
      subst hip
      decide
    · have hip : ip = metadataIPBytes.drop 12 := by
        simp only [Bool.and_eq_true, beq_iff_eq] at h
        exact h.2
      have hd : metadataIPBytes.drop 12 = [169, 254, 169, 254] := by decide
      rw [hd] at hip
      subst hip
      decide
    · exfalso
      have : metadataIPBytes.length = 16 := by decide
      omega
  refine ⟨key, ?_⟩
  intro ips
  induction ips with
  | nil =>
    intro msg h
    simp [safeDialerCheck] at h
  | cons ip rest ih =>
    intro msg h
    by_cases hb : ipBlockedPrivate ip = true
    · simp only [safeDialerCheck, hb, if_true] at h
      exact (DialOutcome.error.inj h).symm
    · by_cases hm : ipEqual ip metadataIPBytes = true
      · exfalso
        have hl : isLinkLocalUnicast ip = true := key ip hm
        have hbp : ipBlockedPrivate ip = true := by
          unfold ipBlockedPrivate
          simp [hl]
        exact hb hbp
      · simp only [safeDialerCheck, hb, hm, if_false, Bool.false_eq_true] at h
        exact ih msg h

/-- C10 witness: the metadata address itself is link-local unicast. -/
theorem c10_metadata_unreachable_witness :
    isLinkLocalUnicast metadataIPBytes = true :=
  c10_metadata_unreachable.1 metadataIPBytes (by decide)

theorem maxTri_le_total (s : Scores) (h1 : 0 ≤ s.anthropic) (h2 : 0 ≤ s.bedrock)
    (h3 : 0 ≤ s.antigravity) : maxTri s ≤ scoresTotal s := by
  unfold maxTri scoresTotal
  exact max_le (by omega) (max_le (by omega) (by omega))

theorem natLog2Aux_bounds (fuel : Nat) : ∀ n : Nat, n ≤ fuel → 1 ≤ n →
    2 ^ natLog2Aux fuel n ≤ n ∧ n < 2 ^ (natLog2Aux fuel n + 1) := by
  induction fuel with
  | zero => intro n h1 h2; omega
  | succ fuel ih =>
    intro n hle h1
    by_cases h2 : 2 ≤ n
    · obtain ⟨hl, hr⟩ := ih (n / 2) (by omega) (by omega)
      have heq : natLog2Aux (fuel + 1) n = natLog2Aux fuel (n / 2) + 1 := by
        simp [natLog2Aux, h2]
      rw [heq]
      have hp1 : 2 ^ (natLog2Aux fuel (n / 2) + 1) = 2 * 2 ^ natLog2Aux fuel (n / 2) := by
        rw [pow_succ]; ring
      have hp2 : 2 ^ (natLog2Aux fuel (n / 2) + 1 + 1) = 2 * 2 ^ (natLog2Aux fuel (n / 2) + 1) := by
        rw [pow_succ 2 (natLog2Aux fuel (n / 2) + 1)]; ring
      omega
    · have hn1 : n = 1 := by omega
      subst hn1
      have heq : natLog2Aux (fuel + 1) 1 = 0 := by simp [natLog2Aux]
      rw [heq]
      norm_num

theorem natLog2_bounds (n : Nat) (h : 1 ≤ n) :
    2 ^ natLog2 n ≤ n ∧ n < 2 ^ (natLog2 n + 1) :=
  natLog2Aux_bounds n n le_rfl h

theorem nearestEven_bounds (n d : Nat) (hd : 1 ≤ d) :
    (n : ℚ) / (d : ℚ) - 1 / 2 ≤ (nearestEven n d : ℚ) ∧
    (nearestEven n d : ℚ) ≤ (n : ℚ) / (d : ℚ) + 1 / 2 := by
  have hd0 : (0 : ℚ) < (d : ℚ) := by exact_mod_cast hd
  have hmod : (d : ℚ) * ((n / d : ℕ) : ℚ) + ((n % d : ℕ) : ℚ) = (n : ℚ) := by
    exact_mod_cast Nat.div_add_mod n d
  have hlt : ((n % d : ℕ) : ℚ) < (d : ℚ) := by
    exact_mod_cast Nat.mod_lt n (show 0 < d by omega)
  have hr0 : (0 : ℚ) ≤ ((n % d : ℕ) : ℚ) := by positivity
  have hnd : (n : ℚ) / (d : ℚ) = ((n / d : ℕ) : ℚ) + ((n % d : ℕ) : ℚ) / (d : ℚ) := by
    field_simp
    linarith [hmod]
  simp only [nearestEven]
  split_ifs with h1 h2 h3
  · have hc : 2 * ((n % d : ℕ) : ℚ) < (d : ℚ) := by exact_mod_cast h1
    have hhalf : ((n % d : ℕ) : ℚ) / (d : ℚ) ≤ 1 / 2 := by
      rw [div_le_iff₀ hd0]; linarith
    have hpos : (0 : ℚ) ≤ ((n % d : ℕ) : ℚ) / (d : ℚ) := by positivity
    constructor <;> (rw [hnd]; linarith)
  · have hc : (d : ℚ) < 2 * ((n % d : ℕ) : ℚ) := by exact_mod_cast h2
    have hhalf : 1 / 2 ≤ ((n % d : ℕ) : ℚ) / (d : ℚ) := by
      rw [le_div_iff₀ hd0]; linarith
    have hlt1 : ((n % d : ℕ) : ℚ) / (d : ℚ) < 1 := (div_lt_one hd0).mpr hlt
    constructor <;> (rw [hnd]; push_cast; linarith)
  · have hceq : 2 * (n % d) = d := by omega
    have hc : 2 * ((n % d : ℕ) : ℚ) = (d : ℚ) := by exact_mod_cast hceq
    have hhalf : ((n % d : ℕ) : ℚ) / (d : ℚ) = 1 / 2 := by
      field_simp
      linarith
    constructor <;> (rw [hnd, hhalf]; linarith)
  · have hceq : 2 * (n % d) = d := by omega
    have hc : 2 * ((n % d : ℕ) : ℚ) = (d : ℚ) := by exact_mod_cast hceq
    have hhalf : ((n % d : ℕ) : ℚ) / (d : ℚ) = 1 / 2 := by
      field_simp
      linarith
    constructor <;> (rw [hnd, hhalf]; push_cast; linarith)

theorem flExp_lt (a b : Nat) (s : Int) (ha : 1 ≤ a) (hb : 1 ≤ b) :
    (2 : ℚ) ^ (flExp a b s - 1) < (a : ℚ) / (b : ℚ) * (2 : ℚ) ^ s := by
  obtain ⟨ha1, _⟩ := natLog2_bounds a ha
  obtain ⟨_, hb2⟩ := natLog2_bounds b hb
  have hb0 : (0 : ℚ) < (b : ℚ) := by exact_mod_cast hb
  have hcast_a : (2 : ℚ) ^ ((natLog2 a : ℕ) : ℤ) ≤ (a : ℚ) := by
    rw [zpow_natCast]
    exact_mod_cast ha1
  have hcast_b : (b : ℚ) < (2 : ℚ) ^ (((natLog2 b : ℕ) : ℤ) + 1) := by
    have he : ((natLog2 b : ℕ) : ℤ) + 1 = ((natLog2 b + 1 : ℕ) : ℤ) := by push_cast; ring
    rw [he, zpow_natCast]
    exact_mod_cast hb2
  have hab : (2 : ℚ) ^ ((natLog2 a : ℤ) - (natLog2 b : ℤ) - 1) < (a : ℚ) / (b : ℚ) := by
    rw [lt_div_iff₀ hb0]
    calc (2 : ℚ) ^ ((natLog2 a : ℤ) - (natLog2 b : ℤ) - 1) * (b : ℚ)
        < (2 : ℚ) ^ ((natLog2 a : ℤ) - (natLog2 b : ℤ) - 1) *
            (2 : ℚ) ^ (((natLog2 b : ℕ) : ℤ) + 1) :=
          mul_lt_mul_of_pos_left hcast_b (zpow_pos (by norm_num) _)
      _ = (2 : ℚ) ^ ((natLog2 a : ℕ) : ℤ) := by
          rw [← zpow_add₀ (by norm_num : (2 : ℚ) ≠ 0)]
          congr 1
          ring
      _ ≤ (a : ℚ) := hcast_a
  have hle : flExp a b s - s ≤ (natLog2 a : ℤ) - (natLog2 b : ℤ) := by
    simp only [flExp]
    split_ifs <;> omega
  have h2s : (0 : ℚ) < (2 : ℚ) ^ s := zpow_pos (by norm_num) _
  calc (2 : ℚ) ^ (flExp a b s - 1)
      = (2 : ℚ) ^ (flExp a b s - s - 1) * (2 : ℚ) ^ s := by
        rw [← zpow_add₀ (by norm_num : (2 : ℚ) ≠ 0)]
        congr 1
        ring
    _ ≤ (2 : ℚ) ^ ((natLog2 a : ℤ) - (natLog2 b : ℤ) - 1) * (2 : ℚ) ^ s := by
        apply mul_le_mul_of_nonneg_right _ (le_of_lt h2s)
        exact zpow_le_zpow_right₀ (by norm_num) (by omega)
    _ < (a : ℚ) / (b : ℚ) * (2 : ℚ) ^ s := mul_lt_mul_of_pos_right hab h2s

theorem dy_round_step (w : Nat) (u : Int) (v : ℚ)
    (hlo : v * (2 : ℚ) ^ (-u) - 1 / 2 ≤ (w : ℚ))
    (hup : (w : ℚ) ≤ v * (2 : ℚ) ^ (-u) + 1 / 2)
    (hunit : (2 : ℚ) ^ (u - 1) ≤ v * (1 / 2 ^ 52) + 1 / 2 ^ 1075) :
    v * (1 - 1 / 2 ^ 52) - 1 / 2 ^ 1075 ≤ (w : ℚ) * (2 : ℚ) ^ u ∧
    (w : ℚ) * (2 : ℚ) ^ u ≤ v * (1 + 1 / 2 ^ 52) + 1 / 2 ^ 1075 := by
  have h2u_pos : (0 : ℚ) < (2 : ℚ) ^ u := zpow_pos (by norm_num) _
  have hvval : v * (2 : ℚ) ^ (-u) * (2 : ℚ) ^ u = v := by
    rw [zpow_neg]
    field_simp
  have hhalf : (1 / 2 : ℚ) * (2 : ℚ) ^ u = (2 : ℚ) ^ (u - 1) := by
    rw [zpow_sub₀ (by norm_num : (2 : ℚ) ≠ 0), zpow_one]
    ring
  constructor
  · have hm := mul_le_mul_of_nonneg_right hlo (le_of_lt h2u_pos)
    rw [sub_mul, hvval, hhalf] at hm
    linarith
  · have hm := mul_le_mul_of_nonneg_right hup (le_of_lt h2u_pos)
    rw [add_mul, hvval, hhalf] at hm
    linarith

theorem flDyadic_err (a b : Nat) (s : Int) (hb : 1 ≤ b) (v : ℚ)
    (hv : (a : ℚ) / (b : ℚ) * (2 : ℚ) ^ s = v) :
    v * (1 - 1 / 2 ^ 52) - 1 / 2 ^ 1075 ≤ dyVal (flDyadic a b s) ∧
    dyVal (flDyadic a b s) ≤ v * (1 + 1 / 2 ^ 52) + 1 / 2 ^ 1075 := by
  by_cases ha : a = 0
  · subst ha
    have hfl : flDyadic 0 b s = (0, 0) := by simp [flDyadic]
    have hv0 : v = 0 := by
      rw [← hv]
      simp
    rw [hfl, hv0]
    constructor <;> norm_num [dyVal]
  · have ha1 : 1 ≤ a := Nat.one_le_iff_ne_zero.mpr ha
    have h0a : (0 : ℚ) < (a : ℚ) := by exact_mod_cast ha1
    have h0b : (0 : ℚ) < (b : ℚ) := by exact_mod_cast hb
    have hv_pos : 0 < v := by
      rw [← hv]
      exact mul_pos (div_pos h0a h0b) (zpow_pos (by norm_num) s)
    have hexp := flExp_lt a b s ha1 hb
    rw [hv] at hexp
    simp only [flDyadic, if_neg ha]
    set e := flExp a b s with he
    set u : Int := if -1022 ≤ e then e - 52 else -1074 with hu
    have hunit : (2 : ℚ) ^ (u - 1) ≤ v * (1 / 2 ^ 52) + 1 / 2 ^ 1075 := by
      rw [hu]
      split_ifs with hn
      · have h1 : (2 : ℚ) ^ (e - 52 - 1) = (2 : ℚ) ^ (e - 1) * (2 : ℚ) ^ (-52 : ℤ) := by
          rw [← zpow_add₀ (by norm_num : (2 : ℚ) ≠ 0)]
          congr 1
          ring
        have h2 : ((2 : ℚ) ^ (-52 : ℤ)) = 1 / 2 ^ 52 := by
          rw [show ((-52 : ℤ)) = -((52 : ℕ) : ℤ) by norm_num, zpow_neg, zpow_natCast]
          norm_num
        have h3 : (0 : ℚ) < (1 : ℚ) / 2 ^ 52 := by norm_num
        have h4 : (2 : ℚ) ^ (e - 1) * (1 / 2 ^ 52) < v * (1 / 2 ^ 52) :=
          mul_lt_mul_of_pos_right hexp h3
        have h5 : (0 : ℚ) < (1 : ℚ) / 2 ^ 1075 := by positivity
        rw [h1, h2]
        linarith
      · have h1 : (2 : ℚ) ^ ((-1074 : ℤ) - 1) = 1 / 2 ^ 1075 := by
          rw [show ((-1074 : ℤ) - 1) = -((1075 : ℕ) : ℤ) by norm_num, zpow_neg, zpow_natCast]
          norm_num
        have h2 : (0 : ℚ) ≤ v * (1 / 2 ^ 52) := by
          apply mul_nonneg (le_of_lt hv_pos)
          norm_num
        rw [h1]
        linarith
    split_ifs with hc
    · have hb' := hb
      obtain ⟨hlo, hup⟩ := nearestEven_bounds (a * 2 ^ (s - u).toNat) b hb'
      have hz : ((2 : ℚ) ^ ((s - u).toNat : ℕ)) = (2 : ℚ) ^ (s - u) := by
        rw [← zpow_natCast, Int.toNat_of_nonneg hc]
      have h2u : ((2 : ℚ) ^ u) ≠ 0 := ne_of_gt (zpow_pos (by norm_num) _)
      have hid : ((a * 2 ^ (s - u).toNat : ℕ) : ℚ) / (b : ℚ) = v * (2 : ℚ) ^ (-u) := by
        push_cast
        rw [hz, ← hv, zpow_sub₀ (by norm_num : (2 : ℚ) ≠ 0), zpow_neg]
        field_simp
        ring
      rw [hid] at hlo hup
      exact dy_round_step (nearestEven (a * 2 ^ (s - u).toNat) b) u v hlo hup hunit
    · have hkpos : 0 < 2 ^ (u - s).toNat := pow_pos (by norm_num) _
      have hb' : 1 ≤ b * 2 ^ (u - s).toNat := by
        have := Nat.mul_le_mul hb (show 1 ≤ 2 ^ (u - s).toNat by omega)
        omega
      obtain ⟨hlo, hup⟩ := nearestEven_bounds a (b * 2 ^ (u - s).toNat) hb'
      have hz : ((2 : ℚ) ^ ((u - s).toNat : ℕ)) = (2 : ℚ) ^ (u - s) := by
        rw [← zpow_natCast, Int.toNat_of_nonneg (by omega)]
      have h2u : ((2 : ℚ) ^ u) ≠ 0 := ne_of_gt (zpow_pos (by norm_num) _)
      have h2s : ((2 : ℚ) ^ s) ≠ 0 := ne_of_gt (zpow_pos (by norm_num) _)
      have hid : (a : ℚ) / ((b * 2 ^ (u - s).toNat : ℕ) : ℚ) = v * (2 : ℚ) ^ (-u) := by
        push_cast
        rw [hz, ← hv, zpow_sub₀ (by norm_num : (2 : ℚ) ≠ 0), zpow_neg]
        rw [div_mul_eq_mul_div, div_mul_eq_mul_div]
        rw [div_eq_div_iff (by positivity) (by positivity)]
        field_simp
        ring
      rw [hid] at hlo hup
      exact dy_round_step (nearestEven a (b * 2 ^ (u - s).toNat)) u v hlo hup hunit

theorem dyVal_nonneg (p : Nat × Int) : 0 ≤ dyVal p := by
  unfold dyVal
  exact mul_nonneg (Nat.cast_nonneg _) (le_of_lt (zpow_pos (by norm_num) _))

theorem dy_div_val (p q : Nat × Int) (hq : 1 ≤ q.1) :
    (p.1 : ℚ) / (q.1 : ℚ) * (2 : ℚ) ^ (p.2 - q.2) = dyVal p / dyVal q := by
  have hq0 : ((q.1 : ℕ) : ℚ) ≠ 0 := by
    have : (0 : ℚ) < (q.1 : ℚ) := by exact_mod_cast hq
    exact ne_of_gt this
  have h2 : ((2 : ℚ) ^ q.2) ≠ 0 := ne_of_gt (zpow_pos (by norm_num) _)
  unfold dyVal
  rw [zpow_sub₀ (by norm_num : (2 : ℚ) ≠ 0)]
  field_simp

theorem dyRound_le (p : Nat × Int) : (dyRoundHalfAway p : ℚ) ≤ dyVal p + 1 / 2 := by
  unfold dyRoundHalfAway dyVal
  split_ifs with h hk
  · have hz : ((2 : ℚ) ^ (p.2.toNat : ℕ)) = (2 : ℚ) ^ p.2 := by
      rw [← zpow_natCast, Int.toNat_of_nonneg h]
    push_cast
    rw [hz]
    linarith
  · have hq0 : (0 : ℚ) < (2 : ℚ) ^ (-p.2).toNat := by positivity
    have hz : (2 : ℚ) ^ p.2 = ((2 : ℚ) ^ (-p.2).toNat)⁻¹ := by
      conv_lhs => rw [show p.2 = -(((-p.2).toNat : ℕ) : ℤ) by omega]
      rw [zpow_neg, zpow_natCast]
    have hmod : (2 : ℚ) ^ (-p.2).toNat * ((p.1 / 2 ^ (-p.2).toNat : ℕ) : ℚ) +
        ((p.1 % 2 ^ (-p.2).toNat : ℕ) : ℚ) = (p.1 : ℚ) := by
      exact_mod_cast Nat.div_add_mod p.1 (2 ^ (-p.2).toNat)
    have hkc : (2 : ℚ) ^ (-p.2).toNat ≤ 2 * ((p.1 % 2 ^ (-p.2).toNat : ℕ) : ℚ) := by
      exact_mod_cast hk
    push_cast
    rw [hz, ← div_eq_mul_inv]
    have key : (((p.1 / 2 ^ (-p.2).toNat : ℕ) : ℚ) + 1 - 1 / 2) ≤
        (p.1 : ℚ) / (2 : ℚ) ^ (-p.2).toNat := by
      rw [le_div_iff₀ hq0]
      nlinarith [hmod, hkc]
    linarith
  · have hq0 : (0 : ℚ) < (2 : ℚ) ^ (-p.2).toNat := by positivity
    have hz : (2 : ℚ) ^ p.2 = ((2 : ℚ) ^ (-p.2).toNat)⁻¹ := by
      conv_lhs => rw [show p.2 = -(((-p.2).toNat : ℕ) : ℤ) by omega]
      rw [zpow_neg, zpow_natCast]
    have hmod : (2 : ℚ) ^ (-p.2).toNat * ((p.1 / 2 ^ (-p.2).toNat : ℕ) : ℚ) +
        ((p.1 % 2 ^ (-p.2).toNat : ℕ) : ℚ) = (p.1 : ℚ) := by
      exact_mod_cast Nat.div_add_mod p.1 (2 ^ (-p.2).toNat)
    have hr0 : (0 : ℚ) ≤ ((p.1 % 2 ^ (-p.2).toNat : ℕ) : ℚ) := by positivity
    rw [hz, ← div_eq_mul_inv]
    have key : ((p.1 / 2 ^ (-p.2).toNat : ℕ) : ℚ) ≤ (p.1 : ℚ) / (2 : ℚ) ^ (-p.2).toNat := by
      rw [le_div_iff₀ hq0]
      nlinarith [hmod, hr0]
    linarith

theorem dyLE1_le (p : Nat × Int) (h : dyLE1 p = true) : dyVal p ≤ 1 := by
  unfold dyLE1 at h
  unfold dyVal
  split_ifs at h with hs
  · have hle : p.1 * 2 ^ p.2.toNat ≤ 1 := of_decide_eq_true h
    have hz : ((2 : ℚ) ^ (p.2.toNat : ℕ)) = (2 : ℚ) ^ p.2 := by
      rw [← zpow_natCast, Int.toNat_of_nonneg hs]
    calc (p.1 : ℚ) * (2 : ℚ) ^ p.2 = ((p.1 * 2 ^ p.2.toNat : ℕ) : ℚ) := by
          push_cast
          rw [hz]
      _ ≤ 1 := by exact_mod_cast hle
  · have hle : p.1 ≤ 2 ^ (-p.2).toNat := of_decide_eq_true h
    have hkpos : 0 < 2 ^ (-p.2).toNat := pow_pos (by norm_num) _
    have hq0 : (0 : ℚ) < ((2 ^ (-p.2).toNat : ℕ) : ℚ) := by exact_mod_cast hkpos
    have hz : (2 : ℚ) ^ p.2 = (((2 ^ (-p.2).toNat : ℕ) : ℚ))⁻¹ := by
      push_cast
      conv_rhs => rw [← zpow_natCast (2 : ℚ), Int.toNat_of_nonneg (by omega : (0 : ℤ) ≤ -p.2),
        ← zpow_neg, neg_neg]
    rw [hz, ← div_eq_mul_inv, div_le_one hq0]
    exact_mod_cast hle

theorem conf_final_le_one (r : Nat) (hr : r ≤ 100) :
    dyVal (flDyadic r 100 0) ≤ 1 := by
  have hall : ∀ i : Fin 101, dyLE1 (flDyadic i.1 100 0) = true := by decide
  exact dyLE1_le _ (hall ⟨r, by omega⟩)

theorem goConfDyadic_le_one (m t : Nat) (hmt : m ≤ t) (ht : 1 ≤ t) :
    dyVal (goConfDyadic m t) ≤ 1 := by
  by_cases hm : m = 0
  · subst hm
    have h0 : ∀ (b : Nat) (s : Int), flDyadic 0 b s = (0, 0) := fun b s => by
      simp [flDyadic]
    have hr0 : dyRoundHalfAway ((0, 0) : Nat × Int) = 0 := rfl
    have hr0' : dyRoundHalfAway ((0 : Nat × Int)) = 0 := rfl
    simp [goConfDyadic, h0, hr0, hr0', dyVal]
  · have hm1 : 1 ≤ m := by omega
    simp only [goConfDyadic]
    set fm := flDyadic m 1 0 with hfm_def
    set ft := flDyadic t 1 0 with hft_def
    set q1 := flDyadic fm.1 ft.1 (fm.2 - ft.2) with hq1_def
    set q2 := flDyadic (100 * q1.1) 1 q1.2 with hq2_def
    have hfmB : (m : ℚ) * (1 - 1 / 2 ^ 52) - 1 / 2 ^ 1075 ≤ dyVal fm ∧
        dyVal fm ≤ (m : ℚ) * (1 + 1 / 2 ^ 52) + 1 / 2 ^ 1075 := by
      rw [hfm_def]
      exact flDyadic_err m 1 0 le_rfl (m : ℚ) (by norm_num)
    have hftB : (t : ℚ) * (1 - 1 / 2 ^ 52) - 1 / 2 ^ 1075 ≤ dyVal ft ∧
        dyVal ft ≤ (t : ℚ) * (1 + 1 / 2 ^ 52) + 1 / 2 ^ 1075 := by
      rw [hft_def]
      exact flDyadic_err t 1 0 le_rfl (t : ℚ) (by norm_num)
    have htq : (1 : ℚ) ≤ (t : ℚ) := by exact_mod_cast ht
    have hmtq : (m : ℚ) ≤ (t : ℚ) := by exact_mod_cast hmt
    have hnum : dyVal fm ≤ (t : ℚ) * (1 + 1 / 2 ^ 51) := by
      have h1 : (m : ℚ) * (1 + 1 / 2 ^ 52) ≤ (t : ℚ) * (1 + 1 / 2 ^ 52) :=
        mul_le_mul_of_nonneg_right hmtq (by norm_num)
      have h2 : (0 : ℚ) ≤ ((t : ℚ) - 1) * (1 / 2 ^ 1075) :=
        mul_nonneg (by linarith) (by norm_num)
      have hc : (1 : ℚ) + 1 / 2 ^ 52 + 1 / 2 ^ 1075 ≤ 1 + 1 / 2 ^ 51 := by norm_num
      have h3 : (t : ℚ) * (1 + 1 / 2 ^ 52) + (t : ℚ) * (1 / 2 ^ 1075) ≤
          (t : ℚ) * (1 + 1 / 2 ^ 51) := by
        calc (t : ℚ) * (1 + 1 / 2 ^ 52) + (t : ℚ) * (1 / 2 ^ 1075)
            = (t : ℚ) * (1 + 1 / 2 ^ 52 + 1 / 2 ^ 1075) := by ring
          _ ≤ (t : ℚ) * (1 + 1 / 2 ^ 51) := mul_le_mul_of_nonneg_left hc (by linarith)
      linarith [hfmB.2]
    have hden : (t : ℚ) * (1 - 1 / 2 ^ 51) ≤ dyVal ft := by
      have h2 : (0 : ℚ) ≤ ((t : ℚ) - 1) * (1 / 2 ^ 1075) :=
        mul_nonneg (by linarith) (by norm_num)
      have hc : (1 : ℚ) - 1 / 2 ^ 51 ≤ 1 - 1 / 2 ^ 52 - 1 / 2 ^ 1075 := by norm_num
      have h3 : (t : ℚ) * (1 - 1 / 2 ^ 51) ≤
          (t : ℚ) * (1 - 1 / 2 ^ 52) - (t : ℚ) * (1 / 2 ^ 1075) := by
        calc (t : ℚ) * (1 - 1 / 2 ^ 51) ≤ (t : ℚ) * (1 - 1 / 2 ^ 52 - 1 / 2 ^ 1075) :=
              mul_le_mul_of_nonneg_left hc (by linarith)
          _ = (t : ℚ) * (1 - 1 / 2 ^ 52) - (t : ℚ) * (1 / 2 ^ 1075) := by ring
      linarith [hftB.1]
    have hden_pos : (0 : ℚ) < dyVal ft := by
      have hp : (0 : ℚ) < (t : ℚ) * (1 - 1 / 2 ^ 51) :=
        mul_pos (by linarith) (by norm_num)
      linarith
    have hft1 : 1 ≤ ft.1 := by
      rcases Nat.eq_zero_or_pos ft.1 with h0 | h1
      · exfalso
        have hz : dyVal ft = 0 := by
          unfold dyVal
          rw [h0]
          norm_num
        linarith
      · exact h1
    have hq1B : (dyVal fm / dyVal ft) * (1 - 1 / 2 ^ 52) - 1 / 2 ^ 1075 ≤ dyVal q1 ∧
        dyVal q1 ≤ (dyVal fm / dyVal ft) * (1 + 1 / 2 ^ 52) + 1 / 2 ^ 1075 := by
      rw [hq1_def]
      exact flDyadic_err fm.1 ft.1 (fm.2 - ft.2) hft1 (dyVal fm / dyVal ft)
        (dy_div_val fm ft hft1)
    have htpos : (0 : ℚ) < (t : ℚ) := by linarith
    have hratio : dyVal fm / dyVal ft ≤ (1 + 1 / 2 ^ 51) / (1 - 1 / 2 ^ 51) := by
      calc dyVal fm / dyVal ft
          ≤ ((t : ℚ) * (1 + 1 / 2 ^ 51)) / ((t : ℚ) * (1 - 1 / 2 ^ 51)) :=
            div_le_div₀ (by positivity) hnum (mul_pos htpos (by norm_num)) hden
        _ = (1 + 1 / 2 ^ 51) / (1 - 1 / 2 ^ 51) :=
            mul_div_mul_left _ _ (ne_of_gt htpos)
    have hVq1 : dyVal q1 ≤ 1 + (1 : ℚ) / 2 ^ 45 := by
      have h1 : (dyVal fm / dyVal ft) * (1 + 1 / 2 ^ 52) ≤
          ((1 + 1 / 2 ^ 51) / (1 - 1 / 2 ^ 51)) * (1 + 1 / 2 ^ 52) :=
        mul_le_mul_of_nonneg_right hratio (by norm_num)
      have h2 : ((1 + (1 : ℚ) / 2 ^ 51) / (1 - 1 / 2 ^ 51)) * (1 + 1 / 2 ^ 52) + 1 / 2 ^ 1075 ≤
          1 + 1 / 2 ^ 45 := by norm_num
      linarith [hq1B.2]
    have hq2B : (100 * dyVal q1) * (1 - 1 / 2 ^ 52) - 1 / 2 ^ 1075 ≤ dyVal q2 ∧
        dyVal q2 ≤ (100 * dyVal q1) * (1 + 1 / 2 ^ 52) + 1 / 2 ^ 1075 := by
      rw [hq2_def]
      apply flDyadic_err (100 * q1.1) 1 q1.2 le_rfl (100 * dyVal q1)
      unfold dyVal
      push_cast
      ring
    have hVq2 : dyVal q2 ≤ 100 + (1 : ℚ) / 4 := by
      have h0 : (0 : ℚ) ≤ dyVal q1 := dyVal_nonneg _
      have h1 : (100 : ℚ) * dyVal q1 ≤ 100 * (1 + 1 / 2 ^ 45) := by linarith
      have h2 : (100 * dyVal q1) * (1 + 1 / 2 ^ 52) ≤
          (100 * (1 + (1 : ℚ) / 2 ^ 45)) * (1 + 1 / 2 ^ 52) :=
        mul_le_mul_of_nonneg_right h1 (by norm_num)
      have h3 : (100 * (1 + (1 : ℚ) / 2 ^ 45)) * (1 + 1 / 2 ^ 52) + 1 / 2 ^ 1075 ≤
          100 + 1 / 4 := by norm_num
      linarith [hq2B.2]
    have hr : dyRoundHalfAway q2 ≤ 100 := by
      by_contra hcon
      have h101 : (101 : ℚ) ≤ ((dyRoundHalfAway q2 : ℕ) : ℚ) := by
        exact_mod_cast (by omega : (101 : ℕ) ≤ dyRoundHalfAway q2)
      have h1 := dyRound_le q2
      linarith
    exact conf_final_le_one _ hr

theorem goConfidence_bounds (m t : Int) (hmt : m ≤ t) (ht : 1 ≤ t) :
    0 ≤ goConfidence m t ∧ goConfidence m t ≤ 1 := by
  constructor
  · exact dyVal_nonneg _
  · unfold goConfidence
    exact goConfDyadic_le_one m.toNat t.toNat (by omega) (by omega)

/-- C2: for every fingerprint list with at least one error-free
fingerprint, analyze returns verdict "suspicious" iff either the
post-clamp total is 0 and at least one missing flag was raised, or the
total is positive, the max-scoring bucket is anthropic, and at least two
missing flags were raised. -/
theorem c2_suspicious_iff (fps : List Fingerprint) (model : String)
    (h : validOf fps ≠ []) :
    ((analyze fps model).verdict = "suspicious" ↔
      (scoresTotal (analyze fps model).scores = 0 ∧ 1 ≤ (analyzeChain fps).flags.length) ∨
      (0 < scoresTotal (analyze fps model).scores ∧
        (winnerOf (analyze fps model).scores).1 = "anthropic" ∧
        2 ≤ (analyzeChain fps).flags.length)) := by
  rw [analyze_verdict_eq fps model h, analyze_scores_eq fps model h]
  obtain ⟨h1, h2, h3⟩ := analyzeChain_nonneg fps
  by_cases ht : scoresTotal (analyzeChain fps).scores = 0
  · by_cases hf : (analyzeChain fps).flags = []
    · have hD : passD (analyzeChain fps) =
          ("unknown", 0, false, (analyzeChain fps).evidence ++ ["未获取到有效指纹信号"]) := by
        simp [passD, ht, hf]
      rw [hD]
      simp [ht, hf]
    · have hD : passD (analyzeChain fps) =
          ("anthropic", 0, true,
            (analyzeChain fps).evidence ++ ["[!] 正面分数被缺失扣分抵消，高度可疑伪装 Anthropic"]) := by
        simp [passD, ht, hf]
      rw [hD]
      have hlen : 1 ≤ (analyzeChain fps).flags.length := List.length_pos.mpr hf
      simp [ht, hlen]
  · have htpos : 0 < scoresTotal (analyzeChain fps).scores := by
      unfold scoresTotal at ht ⊢
      omega
    have hD1 : (passD (analyzeChain fps)).1 = (winnerOf (analyzeChain fps).scores).1 := by
      simp [passD, ht]
    have hDs : (passD (analyzeChain fps)).2.2.1 =
        decide ((winnerOf (analyzeChain fps).scores).1 = "anthropic" ∧
          2 ≤ (analyzeChain fps).flags.length) := by
      simp [passD, ht]
    by_cases hw : (winnerOf (analyzeChain fps).scores).1 = "anthropic" ∧
        2 ≤ (analyzeChain fps).flags.length
    · rw [hDs]
      simp [hw.1, hw.2, htpos, ht]
    · rw [hDs]
      have hne := winnerOf_ne_suspicious (analyzeChain fps).scores
      simp [hw, hD1, hne, ht]

/-- C2 witness: a lone anthropic tool-id fingerprint loses its points to
the missing-field penalties (total 0, two flags) and is suspicious. -/
theorem c2_suspicious_iff_witness :
    (analyze [fpAnthBare] "m").verdict = "suspicious" :=
  (c2_suspicious_iff [fpAnthBare] "m" (by decide)).mpr (Or.inl (by decide))

/-- C3 counterexample: five ordinary fingerprints reach post-clamp
scores (anthropic 23, bedrock 17, antigravity 0); exact rational
rounding of max/total via round(x*100)/100 yields 0.58, but the
binary64 arithmetic of the program stores the double nearest 0.57
(float64 of 23/40 lies just below 0.575, so math.Round returns 57), so
the confidence differs from the exact-rounding formula of the claim. -/
theorem c3_confidence_counterexample :
    validOf fps23 ≠ [] ∧
    (analyze fps23 "m").scores = ⟨23, 17, 0⟩ ∧
    (mathRound ((maxTri (analyze fps23 "m").scores : ℚ) /
      (scoresTotal (analyze fps23 "m").scores : ℚ) * 100) : ℚ) / 100 = 58 / 100 ∧
    (analyze fps23 "m").confidence = (5134103575202365 : ℚ) / 2 ^ 53 ∧
    (analyze fps23 "m").confidence ≠
      (mathRound ((maxTri (analyze fps23 "m").scores : ℚ) /
        (scoresTotal (analyze fps23 "m").scores : ℚ) * 100) : ℚ) / 100 := by
  have hval : validOf fps23 ≠ [] := by decide
  have hsc : (analyze fps23 "m").scores = ⟨23, 17, 0⟩ := by decide
  have hmax : maxTri (⟨23, 17, 0⟩ : Scores) = 23 := by decide
  have htot : scoresTotal (⟨23, 17, 0⟩ : Scores) = 40 := by decide
  have hform : (mathRound ((maxTri (analyze fps23 "m").scores : ℚ) /
      (scoresTotal (analyze fps23 "m").scores : ℚ) * 100) : ℚ) / 100 = 58 / 100 := by
    rw [hsc, hmax, htot]
    have harg : ((23 : ℤ) : ℚ) / ((40 : ℤ) : ℚ) * 100 + 1 / 2 = ((58 : ℤ) : ℚ) := by
      push_cast
      norm_num
    have hpos : (0 : ℚ) ≤ ((23 : ℤ) : ℚ) / ((40 : ℤ) : ℚ) * 100 := by
      push_cast
      norm_num
    have h58 : mathRound (((23 : ℤ) : ℚ) / ((40 : ℤ) : ℚ) * 100) = 58 := by
      rw [mathRound, if_pos hpos, harg, Int.floor_intCast]
    rw [h58]
    norm_num
  have hconf : (analyze fps23 "m").confidence = goConfidence 23 40 := by
    rw [analyze_confidence_eq fps23 "m" hval]
    have hch : (analyzeChain fps23).scores = ⟨23, 17, 0⟩ := by decide
    have hwm : winnerOf (⟨23, 17, 0⟩ : Scores) = ("anthropic", 23) := by decide
    simp only [passD, hch, htot, hwm]
    norm_num
  have hdy : goConfDyadic (23 : ℤ).toNat (40 : ℤ).toNat = (5134103575202365, -53) := by decide
  have hgc : goConfidence 23 40 = (5134103575202365 : ℚ) / 2 ^ 53 := by
    have h1 : goConfidence 23 40 = dyVal (5134103575202365, -53) := by
      unfold goConfidence
      rw [hdy]
    rw [h1]
    show ((5134103575202365 : ℕ) : ℚ) * (2 : ℚ) ^ (-53 : ℤ) = (5134103575202365 : ℚ) / 2 ^ 53
    rw [show ((-53 : ℤ)) = -((53 : ℕ) : ℤ) by norm_num, zpow_neg, zpow_natCast,
      ← div_eq_mul_inv]
    norm_num
  have hne : (5134103575202365 : ℚ) / 2 ^ 53 ≠ 58 / 100 := by norm_num
  refine ⟨hval, hsc, hform, ?_, ?_⟩
  · rw [hconf, hgc]
  · rw [hconf, hgc, hform]
    exact hne

/-- C3 (amended): confidence is within [0, 1]; it is 0 whenever the
post-clamp total is 0 (including the all-probes-failed case), and
whenever the total is positive it is the binary64 evaluation of
math.Round(float64(max)/float64(total)*100)/100, which can differ by
one hundredth from exact rational rounding (0.57 against 0.58 at scores
23/40). -/
theorem c3_confidence (fps : List Fingerprint) (model : String) :
    0 ≤ (analyze fps model).confidence ∧ (analyze fps model).confidence ≤ 1 ∧
    (scoresTotal (analyze fps model).scores = 0 → (analyze fps model).confidence = 0) ∧
    (0 < scoresTotal (analyze fps model).scores →
      (analyze fps model).confidence =
        goConfidence (maxTri (analyze fps model).scores)
          (scoresTotal (analyze fps model).scores)) := by
  by_cases h : validOf fps = []
  · rw [analyze_nil_confidence fps model h, analyze_nil_scores fps model h]
    refine ⟨le_refl 0, by norm_num, fun _ => rfl, fun hpos => absurd hpos ?_⟩
    simp [scoresTotal]
  · rw [analyze_confidence_eq fps model h, analyze_scores_eq fps model h]
    obtain ⟨h1, h2, h3⟩ := analyzeChain_nonneg fps
    by_cases ht : scoresTotal (analyzeChain fps).scores = 0
    · have hD : (passD (analyzeChain fps)).2.1 = 0 := by
        by_cases hf : (analyzeChain fps).flags = [] <;> simp [passD, ht, hf]
      rw [hD]
      exact ⟨le_refl 0, by norm_num, fun _ => rfl, fun hpos => absurd ht (by omega)⟩
    · have htpos : 0 < scoresTotal (analyzeChain fps).scores := by
        unfold scoresTotal at ht ⊢
        omega
      have hD : (passD (analyzeChain fps)).2.1 =
          goConfidence ((winnerOf (analyzeChain fps).scores).2)
            (scoresTotal (analyzeChain fps).scores) := by
        simp [passD, ht]
      have hw2 : (winnerOf (analyzeChain fps).scores).2 = maxTri (analyzeChain fps).scores := by
        rw [winnerOf_eq]
      rw [hD, hw2]
      have hb := goConfidence_bounds (maxTri (analyzeChain fps).scores)
        (scoresTotal (analyzeChain fps).scores) (maxTri_le_total _ h1 h2 h3) (by omega)
      exact ⟨hb.1, hb.2, fun h0 => absurd h0 ht, fun _ => rfl⟩

/-- C3 witness: on a concrete antigravity-only run the total is
positive, so the confidence is the binary64 evaluation of the rounding
formula and is non-negative. -/
theorem c3_confidence_witness :
    0 ≤ (analyze [fpVertexTool] "m").confidence ∧
    (analyze [fpVertexTool] "m").confidence =
      goConfidence (maxTri (analyze [fpVertexTool] "m").scores)
        (scoresTotal (analyze [fpVertexTool] "m").scores) :=
  ⟨(c3_confidence [fpVertexTool] "m").1,
   (c3_confidence [fpVertexTool] "m").2.2.2 (by decide)⟩

/-- C4: the winner loop returns the first bucket, in the order
anthropic, bedrock, antigravity, that attains the maximum score (only a
strictly greater score replaces the current winner); in particular, when
bedrock equals antigravity and both exceed anthropic, the verdict is
bedrock. -/
theorem c4_tie_break :
    (∀ s : Scores, winnerOf s = (specFirstMax s, maxTri s)) ∧
    (∀ (fps : List Fingerprint) (model : String),
      (analyze fps model).scores.bedrock = (analyze fps model).scores.antigravity →
      (analyze fps model).scores.anthropic < (analyze fps model).scores.bedrock →
      (analyze fps model).verdict = "bedrock") := by
  refine ⟨winnerOf_eq, ?_⟩
  intro fps model hbg hab
  by_cases hv : validOf fps = []
  · exfalso
    have hz := analyze_nil_scores fps model hv
    rw [hz] at hab hbg
    simp at hab
  · rw [analyze_verdict_eq fps model hv]
    rw [analyze_scores_eq fps model hv] at hbg hab
    obtain ⟨h1, h2, h3⟩ := analyzeChain_nonneg fps
    have ht : ¬ scoresTotal (analyzeChain fps).scores = 0 := by
      unfold scoresTotal
      omega
    have hmax : maxTri (analyzeChain fps).scores = (analyzeChain fps).scores.bedrock := by
      unfold maxTri
      rw [← hbg, max_self, max_eq_right (le_of_lt hab)]
    have hfm : specFirstMax (analyzeChain fps).scores = "bedrock" := by
      unfold specFirstMax
      rw [hmax, if_neg (by omega), if_pos rfl]
    have hwin : winnerOf (analyzeChain fps).scores =
        ("bedrock", (analyzeChain fps).scores.bedrock) := by
      rw [winnerOf_eq, hfm, hmax]
    simp [passD, ht, hwin]

/-- C4 witness: antigravity 5 and bedrock 5 both exceed anthropic 0 and
the verdict resolves to bedrock. -/
theorem c4_tie_break_witness :
    (analyze [fpVertexTool, fpAWSCamel] "m").verdict = "bedrock" :=
  c4_tie_break.2 [fpVertexTool, fpAWSCamel] "m" (by decide) (by decide)

/-- C5: pass B of analyze — when no valid fingerprint has model_source
kiro, both the bedrock and antigravity scores are positive, and
antigravity is at least 4, exactly 5 points per valid fingerprint with
tool_id_source bedrock move from bedrock to antigravity and a [修正]
evidence line survives into the final result; in every other case the
pass leaves the scores unchanged. -/
theorem c5_attribution_correction (fps : List Fingerprint) (model : String) :
    (hasKiroModel (validOf fps) = false →
     0 < (stateA fps).scores.bedrock →
     0 < (stateA fps).scores.antigravity →
     4 ≤ (stateA fps).scores.antigravity →
       (stateB fps).scores.bedrock =
         (stateA fps).scores.bedrock - toolusePointsOf (validOf fps) ∧
       (stateB fps).scores.antigravity =
         (stateA fps).scores.antigravity + toolusePointsOf (validOf fps) ∧
       (stateB fps).scores.anthropic = (stateA fps).scores.anthropic ∧
       s!"[修正] tooluse_ 分数 {toolusePointsOf (validOf fps)} 从 Bedrock 转移到 Antigravity" ∈
         (analyze fps model).evidence) ∧
    (¬ (hasKiroModel (validOf fps) = false ∧ 0 < (stateA fps).scores.antigravity ∧
        0 < (stateA fps).scores.bedrock ∧ 4 ≤ (stateA fps).scores.antigravity) →
     (stateB fps).scores = (stateA fps).scores) := by
  constructor
  · intro hk hb hg hg4
    have hSB : stateB fps = { stateA fps with
        scores := { (stateA fps).scores with
          antigravity := (stateA fps).scores.antigravity + toolusePointsOf (validOf fps),
          bedrock := (stateA fps).scores.bedrock - toolusePointsOf (validOf fps) },
        evidence := (stateA fps).evidence ++
          [s!"[修正] tooluse_ 分数 {toolusePointsOf (validOf fps)} 从 Bedrock 转移到 Antigravity"] } := by
      unfold stateB passB
      rw [if_pos ⟨hk, hg, hb⟩, if_pos hg4]
    refine ⟨by rw [hSB], by rw [hSB], by rw [hSB], ?_⟩
    have hne : validOf fps ≠ [] := by
      intro heq
      have hz : (stateA fps).scores.bedrock = 0 := by
        simp [stateA, passA, heq]
      omega
    refine mem_evidence_analyze fps model _ hne ?_
    refine mem_evidence_passD _ _ ?_
    show _ ∈ (passC (validOf fps) (kiroNote (validOf fps) (stateB fps))).evidence
    refine mem_evidence_passC _ _ _ ?_
    refine mem_evidence_kiroNote _ _ _ ?_
    rw [hSB]
    simp
  · intro hnc
    unfold stateB passB
    by_cases hc : hasKiroModel (validOf fps) = false ∧
        0 < (stateA fps).scores.antigravity ∧ 0 < (stateA fps).scores.bedrock
    · rw [if_pos hc]
      have h4 : ¬ 4 ≤ (stateA fps).scores.antigravity := by
        intro h4
        exact hnc ⟨hc.1, hc.2.1, hc.2.2, h4⟩
      rw [if_neg h4]
    · rw [if_neg hc]

/-- C5 witness: with one bedrock tooluse_ fingerprint and one Vertex
message id, 5 points transfer and the [修正] line is in the evidence. -/
theorem c5_attribution_correction_witness :
    s!"[修正] tooluse_ 分数 {toolusePointsOf (validOf [fpToolBedrock, fpMsgVertex])} 从 Bedrock 转移到 Antigravity" ∈
      (analyze [fpToolBedrock, fpMsgVertex] "m").evidence :=
  ((c5_attribution_correction [fpToolBedrock, fpMsgVertex] "m").1
    (by decide) (by decide) (by decide) (by decide)).2.2.2

/-- C6 counterexample: probing the same model name twice with an
anthropic result and then a bedrock result gives two distinct
non-unavailable verdicts over model_results, yet is_mixed is false,
because the code computes the verdict set over the summary map, where
the second entry overwrote the first. -/
theorem c6_mixed_counterexample :
    scanCex.isMixed = false ∧
    2 ≤ (((scanCex.modelResults.map (fun r => r.verdict)).filter
      (fun v => v != "unavailable")).dedup).length :=
  ⟨by decide, by decide⟩

/-- C6 (amended): is_mixed is true iff the set of distinct
non-unavailable verdicts over the summary values (one verdict per
distinct model name, the last processed occurrence winning) has at least
2 elements; a single-model detection wrapped by ProxyDetect always has
is_mixed false. -/
theorem c6_mixed_amended :
    (∀ (base : String) (steps : List (String × ModelOutcome)),
      ((scanMultipleModels base steps).isMixed = true ↔
        2 ≤ ((((scanMultipleModels base steps).summary.map (fun kv => kv.2)).filter
          (fun v => v != "unavailable")).dedup).length)) ∧
    (∀ (base : String) (r : DetectResult), (proxyDetectSingleWrap base r).isMixed = false) := by
  constructor
  · intro base steps
    simp only [scanMultipleModels, mixedOf, decide_eq_true_eq]
    omega
  · intro base r
    rfl

theorem collectSamples_eq (fps : List Fingerprint) :
    collectSamples fps =
      (fps.filter (fun fp => fp.error == "" && decide (0 < fp.ratelimitInputRemaining))).map
        (fun fp => RLSample.mk fp.ratelimitInputRemaining fp.ratelimitInputReset) := by
  have key : ∀ (l : List Fingerprint) (acc : List RLSample),
      l.foldl (fun acc fp => if fp.error = "" ∧ 0 < fp.ratelimitInputRemaining then
          acc ++ [⟨fp.ratelimitInputRemaining, fp.ratelimitInputReset⟩] else acc) acc =
        acc ++ (l.filter (fun fp => fp.error == "" && decide (0 < fp.ratelimitInputRemaining))).map
          (fun fp => RLSample.mk fp.ratelimitInputRemaining fp.ratelimitInputReset) := by
    intro l
    induction l with
    | nil => intro acc; simp
    | cons fp t ih =>
      intro acc
      by_cases hc : fp.error = "" ∧ 0 < fp.ratelimitInputRemaining
      · have hb : (fp.error == "" && decide (0 < fp.ratelimitInputRemaining)) = true := by
          simp [hc.1, hc.2]
        simp only [List.foldl_cons, List.filter_cons, hb, if_pos hc, if_true]
        rw [ih]
        simp
      · have hb : (fp.error == "" && decide (0 < fp.ratelimitInputRemaining)) = false := by
          by_cases hA : fp.error = ""
          · have hB : ¬ 0 < fp.ratelimitInputRemaining := fun hB => hc ⟨hA, hB⟩
            simp [hA, hB]
          · simp [hA]
        simp only [List.foldl_cons, List.filter_cons, hb, if_neg hc, if_false, Bool.false_eq_true]
        exact ih acc
  unfold collectSamples
  rw [key]
  simp

theorem allSame_iff (s0 s1 : RLSample) (rest : List RLSample) :
    ((s1 :: rest).all (fun s => s.remaining == s0.remaining) = true) ↔
    (∀ a ∈ (s0 :: s1 :: rest).map (fun s => s.remaining),
     ∀ b ∈ (s0 :: s1 :: rest).map (fun s => s.remaining), a = b) := by
  rw [List.all_eq_true]
  constructor
  · intro h a ha b hb
    rw [List.mem_map] at ha hb
    rcases ha with ⟨x, hx, rfl⟩
    rcases hb with ⟨y, hy, rfl⟩
    have hx' : x.remaining = s0.remaining := by
      rcases List.mem_cons.mp hx with rfl | hx2
      · rfl
      · simpa using h x hx2
    have hy' : y.remaining = s0.remaining := by
      rcases List.mem_cons.mp hy with rfl | hy2
      · rfl
      · simpa using h y hy2
    rw [hx', hy']
  · intro h s hs
    have h1 : s.remaining = s0.remaining := by
      apply h
      · exact List.mem_map.mpr ⟨s, List.mem_cons_of_mem _ hs, rfl⟩
      · exact List.mem_map.mpr ⟨s0, List.mem_cons_self _ _, rfl⟩
    simpa using h1

theorem monotoneDecB_iff_chain (l : List Int) :
    monotoneDecB l = true ↔ l.Chain' (fun a b => b ≤ a) := by
  induction l with
  | nil => simp [monotoneDecB]
  | cons a t ih =>
    cases t with
    | nil => simp [monotoneDecB]
    | cons b t2 =>
      simp only [monotoneDecB, Bool.and_eq_true, decide_eq_true_eq, List.chain'_cons]
      rw [ih]

theorem getLastD_map_remaining (l : List RLSample) (a : RLSample) :
    ((l.map (fun s => s.remaining)).getLastD a.remaining) = (l.getLastD a).remaining := by
  induction l generalizing a with
  | nil => rfl
  | cons x t ih =>
    simp only [List.map_cons, List.getLastD_cons]
    exact ih x

/-- C7 (amended): verifyRatelimitDynamic records one sample for each of
the executed probes that succeeded and whose parsed remaining counter is
positive; the verdict is unavailable with fewer than 2 samples; with at
least 2, it is static iff all remaining values are equal, and dynamic
otherwise — with the monotone detail exactly when the sequence is
monotone non-increasing with a positive total drop, and the non-monotone
detail in every other case. -/
theorem c7_ratelimit_amended (model : String) (ocs : List ProbeOutcome) :
    (verifyRatelimitDynamic model ocs).samples =
      (((ocs.map (probeOnceFp "simple" model)).filter
        (fun fp => fp.error == "" && decide (0 < fp.ratelimitInputRemaining))).map
        (fun fp => RLSample.mk fp.ratelimitInputRemaining fp.ratelimitInputReset)) ∧
    ((verifyRatelimitDynamic model ocs).samples.length < 2 →
      (verifyRatelimitDynamic model ocs).verdict = "unavailable") ∧
    (2 ≤ (verifyRatelimitDynamic model ocs).samples.length →
      (((verifyRatelimitDynamic model ocs).verdict = "static" ↔
        ∀ a ∈ rlRemainings (verifyRatelimitDynamic model ocs),
        ∀ b ∈ rlRemainings (verifyRatelimitDynamic model ocs), a = b) ∧
      ((¬ ∀ a ∈ rlRemainings (verifyRatelimitDynamic model ocs),
          ∀ b ∈ rlRemainings (verifyRatelimitDynamic model ocs), a = b) →
        (verifyRatelimitDynamic model ocs).verdict = "dynamic" ∧
        ((rlRemainings (verifyRatelimitDynamic model ocs)).Chain' (fun a b => b ≤ a) ∧
            rlLast (verifyRatelimitDynamic model ocs) < rlHead (verifyRatelimitDynamic model ocs) →
          (verifyRatelimitDynamic model ocs).detail =
            s!"remaining 单调递减 {rlHead (verifyRatelimitDynamic model ocs)} → {rlLast (verifyRatelimitDynamic model ocs)} (drop={rlHead (verifyRatelimitDynamic model ocs) - rlLast (verifyRatelimitDynamic model ocs)})，真实 ratelimit") ∧
        (¬ ((rlRemainings (verifyRatelimitDynamic model ocs)).Chain' (fun a b => b ≤ a) ∧
            rlLast (verifyRatelimitDynamic model ocs) < rlHead (verifyRatelimitDynamic model ocs)) →
          (verifyRatelimitDynamic model ocs).detail =
            s!"remaining 有变化但非单调 ({rlHead (verifyRatelimitDynamic model ocs)} → {rlLast (verifyRatelimitDynamic model ocs)})，可能真实")))) := by
  have hsam : (verifyRatelimitDynamic model ocs).samples =
      collectSamples (ocs.map (probeOnceFp "simple" model)) := rfl
  have hv : (verifyRatelimitDynamic model ocs).verdict =
      (rlDecide (collectSamples (ocs.map (probeOnceFp "simple" model)))).1 := rfl
  have hd : (verifyRatelimitDynamic model ocs).detail =
      (rlDecide (collectSamples (ocs.map (probeOnceFp "simple" model)))).2 := rfl
  have hrem : rlRemainings (verifyRatelimitDynamic model ocs) =
      (collectSamples (ocs.map (probeOnceFp "simple" model))).map (fun s => s.remaining) := rfl
  have hH : rlHead (verifyRatelimitDynamic model ocs) =
      ((collectSamples (ocs.map (probeOnceFp "simple" model))).map (fun s => s.remaining)).headD 0 := rfl
  have hL : rlLast (verifyRatelimitDynamic model ocs) =
      ((collectSamples (ocs.map (probeOnceFp "simple" model))).map (fun s => s.remaining)).getLastD 0 := rfl
  refine ⟨hsam.trans (collectSamples_eq _), ?_⟩
  rw [hsam, hv, hd, hrem, hH, hL]
  rcases hs : collectSamples (ocs.map (probeOnceFp "simple" model)) with _ | ⟨s0, tl⟩
  · exact ⟨fun _ => rfl, fun h2 => by simp at h2⟩
  rcases tl with _ | ⟨s1, rest⟩
  · exact ⟨fun _ => rfl, fun h2 => by simp at h2⟩
  have hrl : rlDecide (s0 :: s1 :: rest) =
      (if (s1 :: rest).all (fun s => s.remaining == s0.remaining) then
        ("static", s!"remaining 固定为 {s0.remaining}，疑似伪造")
      else if monotoneDecB ((s0 :: s1 :: rest).map (fun s => s.remaining)) &&
          decide (0 < s0.remaining - ((s0 :: s1 :: rest).getLastD s0).remaining) then
        ("dynamic", s!"remaining 单调递减 {s0.remaining} → {((s0 :: s1 :: rest).getLastD s0).remaining} (drop={s0.remaining - ((s0 :: s1 :: rest).getLastD s0).remaining})，真实 ratelimit")
      else
        ("dynamic", s!"remaining 有变化但非单调 ({s0.remaining} → {((s0 :: s1 :: rest).getLastD s0).remaining})，可能真实")) := rfl
  have hgl : ((s0 :: s1 :: rest).map (fun s => s.remaining)).getLastD 0 =
      ((s0 :: s1 :: rest).getLastD s0).remaining := by
    simp only [List.map_cons, List.getLastD_cons]
    exact getLastD_map_remaining rest s1
  have hhd : ((s0 :: s1 :: rest).map (fun s => s.remaining)).headD 0 = s0.remaining := rfl
  refine ⟨fun h2 => by simp at h2; omega, fun _ => ?_⟩
  rw [hrl]
  by_cases hAll : ((s1 :: rest).all (fun s => s.remaining == s0.remaining)) = true
  · rw [if_pos hAll]
    refine ⟨iff_of_true rfl ((allSame_iff s0 s1 rest).mp hAll), fun hc => ?_⟩
    exact absurd ((allSame_iff s0 s1 rest).mp hAll) hc
  · rw [if_neg hAll]
    by_cases hM : (monotoneDecB ((s0 :: s1 :: rest).map (fun s => s.remaining)) &&
        decide (0 < s0.remaining - ((s0 :: s1 :: rest).getLastD s0).remaining)) = true
    · rw [if_pos hM]
      rw [Bool.and_eq_true, decide_eq_true_eq] at hM
      constructor
      · refine iff_of_false (by simp) (fun hp => ?_)
        exact hAll ((allSame_iff s0 s1 rest).mpr hp)
      · intro _
        refine ⟨rfl, fun _ => ?_, fun hn => ?_⟩
        · rw [hgl, hhd]
        · exfalso
          refine hn ⟨(monotoneDecB_iff_chain _).mp hM.1, ?_⟩
          rw [hgl, hhd]
          omega
    · rw [if_neg hM]
      constructor
      · refine iff_of_false (by simp) (fun hp => ?_)
        exact hAll ((allSame_iff s0 s1 rest).mpr hp)
      · intro _
        refine ⟨rfl, fun hmono => ?_, fun _ => ?_⟩
        · exfalso
          apply hM
          rw [Bool.and_eq_true, decide_eq_true_eq]
          rcases hmono with ⟨hch, hlt⟩
          rw [hgl, hhd] at hlt
          exact ⟨(monotoneDecB_iff_chain _).mpr hch, by omega⟩
        · rw [hgl, hhd]

/-- C7 counterexample: two successful probes whose responses carry the
remaining header with value 0 record no sample at all (the code requires
a positive parsed value), so the verdict is unavailable where the claim
as stated would have two samples. -/
theorem c7_sample_counterexample :
    (verifyRatelimitDynamic "m" cex7Outcomes).samples.length = 0 ∧
    cex7Outcomes.countP specCarriesRemainingHeader = 2 ∧
    (verifyRatelimitDynamic "m" cex7Outcomes).verdict = "unavailable" :=
  ⟨by decide, by decide, by decide⟩

/-- C7 witness: with remaining values 50000 then 49000 the samples are
not all equal and the verdict is dynamic. -/
theorem c7_ratelimit_amended_witness :
    (verifyRatelimitDynamic "m" wit7Outcomes).verdict = "dynamic" :=
  (((c7_ratelimit_amended "m" wit7Outcomes).2.2 (by decide)).2 (by
    intro hall
    have h1 := hall 50000 (by decide) 49000 (by decide)
    omega)).1

theorem contentStep_class (fp : Fingerprint) (b : JValue) :
    (contentStep fp b).thinkingSigClass =
      (match b with
       | .jobj bm =>
         if isTypeTag bm "thinking" then classifyThinkingSig (jstrD (jlookup bm "signature"))
         else fp.thinkingSigClass
       | _ => fp.thinkingSigClass) := by
  cases b <;> first | rfl | (simp only [contentStep]; split_ifs <;> rfl)

theorem processContent_class (blocks : List JValue) (fp : Fingerprint) :
    (processContent blocks fp).thinkingSigClass =
      (match lastThinkingSig blocks with
       | none => fp.thinkingSigClass
       | some sig => classifyThinkingSig sig) := by
  induction blocks generalizing fp with
  | nil => rfl
  | cons b bs ih =>
    have h1 : processContent (b :: bs) fp = processContent bs (contentStep fp b) := rfl
    rw [h1, ih (contentStep fp b)]
    cases hl : lastThinkingSig bs with
    | some s => simp only [lastThinkingSig, hl]
    | none =>
      simp only [lastThinkingSig, hl]
      rw [contentStep_class]
      cases b <;> try rfl
      case jobj bm =>
        by_cases hth : isTypeTag bm "thinking" = true <;> simp [hth]

theorem ratelimitStep_class (fp : Fingerprint) (kv : String × List String) :
    (ratelimitStep fp kv).thinkingSigClass = fp.thinkingSigClass := by
  simp only [ratelimitStep]
  split_ifs <;> first | rfl | (cases atoi (kv.2.headD "") <;> rfl)

theorem extractRatelimit_class (headers : List (String × List String)) (fp : Fingerprint) :
    (extractRatelimit headers fp).thinkingSigClass = fp.thinkingSigClass := by
  induction headers generalizing fp with
  | nil => rfl
  | cons kv t ih =>
    have h1 : extractRatelimit (kv :: t) fp = extractRatelimit t (ratelimitStep fp kv) := rfl
    rw [h1, ih, ratelimitStep_class]

theorem contentUpdate_class (fields : List (String × JValue)) (fp : Fingerprint) :
    (contentUpdate fields fp).thinkingSigClass =
      (match lastThinkingSig (contentBlocksOf fields) with
       | none => fp.thinkingSigClass
       | some sig => classifyThinkingSig sig) := by
  unfold contentUpdate contentBlocksOf
  cases hc : jlookup fields "content" with
  | none => rfl
  | some jv => cases jv <;> first | rfl | exact processContent_class _ _

theorem msgIDUpdate_class (fields : List (String × JValue)) (fp : Fingerprint) :
    (msgIDUpdate fields fp).thinkingSigClass = fp.thinkingSigClass := rfl

theorem modelUpdate_class (fields : List (String × JValue)) (fp : Fingerprint) :
    (modelUpdate fields fp).thinkingSigClass = fp.thinkingSigClass := by
  simp only [modelUpdate]
  split_ifs <;> rfl

theorem cacheMatch_class (usage : List (String × JValue)) (g : Fingerprint) :
    ((match jlookup usage "cache_creation" with
      | some (.jobj _) => { g with hasCacheCreation := true }
      | _ => g) : Fingerprint).thinkingSigClass = g.thinkingSigClass := by
  cases hcc : jlookup usage "cache_creation" with
  | none => rfl
  | some v => cases v <;> rfl

theorem usageUpdate_class (fields : List (String × JValue)) (fp : Fingerprint) :
    (usageUpdate fields fp).thinkingSigClass = fp.thinkingSigClass := by
  unfold usageUpdate
  cases hu : jlookup fields "usage" with
  | none => rfl
  | some jv =>
    cases jv <;> try rfl
    case jobj usage =>
      dsimp only
      split_ifs <;>
        cases jlookup usage "service_tier" <;>
        cases jlookup usage "inference_geo" <;>
        exact cacheMatch_class usage _

theorem probeOnce_json_class (pt m : String) (hd : List (String × List String)) (lat : Int)
    (fields : List (String × JValue)) :
    (probeOnceFp pt m (.ok hd lat (.json fields))).thinkingSigClass =
      (match lastThinkingSig (contentBlocksOf fields) with
       | none => ""
       | some sig => classifyThinkingSig sig) := by
  unfold probeOnceFp
  dsimp only
  rw [usageUpdate_class, modelUpdate_class, msgIDUpdate_class, contentUpdate_class,
    extractRatelimit_class]

/-- C8 counterexample: a signature that begins with claude# but is
shorter than 100 bytes is classified short, not vertex (the length check
comes first), and a parsed 200-response without any thinking block
leaves thinking_sig_class as the empty string, not "none". -/
theorem c8_thinking_sig_counterexample :
    classifyThinkingSig "claude#x" = "short" ∧
    strStartsWith "claude#x" "claude#" = true ∧
    (probeOnceFp "thinking" "m" (.ok [] 0 (.json []))).thinkingSigClass = "" :=
  ⟨by decide, by decide, by decide⟩

/-- C8 (amended): classifyThinkingSig returns none exactly on the empty
signature, short exactly on non-empty signatures shorter than 100 bytes
(this takes precedence over the claude# prefix), vertex exactly on
signatures of at least 100 bytes beginning with claude#, and normal
otherwise; a parsed 200-response's fingerprint carries the
classification of the last thinking block's signature, and the empty
string when no thinking block is present. -/
theorem c8_thinking_sig_amended :
    (∀ sig : String, (classifyThinkingSig sig = "none" ↔ sig = "")) ∧
    (∀ sig : String, (classifyThinkingSig sig = "short" ↔
      sig ≠ "" ∧ sig.utf8ByteSize < 100)) ∧
    (∀ sig : String, (classifyThinkingSig sig = "vertex" ↔
      100 ≤ sig.utf8ByteSize ∧ strStartsWith sig "claude#" = true)) ∧
    (∀ sig : String, (classifyThinkingSig sig = "normal" ↔
      100 ≤ sig.utf8ByteSize ∧ strStartsWith sig "claude#" = false)) ∧
    (∀ (blocks : List JValue) (fp : Fingerprint),
      (processContent blocks fp).thinkingSigClass =
        (match lastThinkingSig blocks with
         | none => fp.thinkingSigClass
         | some sig => classifyThinkingSig sig)) ∧
    (∀ (pt m : String) (hd : List (String × List String)) (lat : Int)
        (fields : List (String × JValue)),
      (probeOnceFp pt m (.ok hd lat (.json fields))).thinkingSigClass =
        (match lastThinkingSig (contentBlocksOf fields) with
         | none => ""
         | some sig => classifyThinkingSig sig)) := by
  refine ⟨?_, ?_, ?_, ?_, processContent_class, probeOnce_json_class⟩
  · intro sig
    by_cases h0 : sig = ""
    · subst h0; decide
    · by_cases h1 : sig.utf8ByteSize < 100
      · simp [classifyThinkingSig, thinkingSigShortThreshold, h0, h1]
      · by_cases h2 : strStartsWith sig "claude#" = true <;>
          simp [classifyThinkingSig, thinkingSigShortThreshold, h0, h1, h2]
  · intro sig
    by_cases h0 : sig = ""
    · subst h0; decide
    · by_cases h1 : sig.utf8ByteSize < 100
      · simp [classifyThinkingSig, thinkingSigShortThreshold, h0, h1]
      · by_cases h2 : strStartsWith sig "claude#" = true <;>
          simp [classifyThinkingSig, thinkingSigShortThreshold, h0, h1, h2]
  · intro sig
    by_cases h0 : sig = ""
    · subst h0; decide
    · by_cases h1 : sig.utf8ByteSize < 100
      · have h1' : ¬ 100 ≤ sig.utf8ByteSize := by omega
        simp [classifyThinkingSig, thinkingSigShortThreshold, h0, h1, h1']
      · have h1'' : 100 ≤ sig.utf8ByteSize := Nat.le_of_not_lt h1
        by_cases h2 : strStartsWith sig "claude#" = true <;>
          simp [classifyThinkingSig, thinkingSigShortThreshold, h0, h1, h2, h1'']
  · intro sig
    by_cases h0 : sig = ""
    · subst h0; decide
    · by_cases h1 : sig.utf8ByteSize < 100
      · have h1' : ¬ 100 ≤ sig.utf8ByteSize := by omega
        simp [classifyThinkingSig, thinkingSigShortThreshold, h0, h1, h1']
      · have h1'' : 100 ≤ sig.utf8ByteSize := Nat.le_of_not_lt h1
        by_cases h2 : strStartsWith sig "claude#" = true <;>
          simp [classifyThinkingSig, thinkingSigShortThreshold, h0, h1, h2, h1'']
